import Mathlib

/-!
Verification of the layout engine in `layout.go` (package `gi`).

The Go source is shallowly embedded: `float64` values are modelled as `ℚ`
(exact arithmetic; the source only adds, multiplies, compares and divides),
Go `int` style counts are modelled as `ℕ` (they are non-negative in every
reachable state; a negative `Columns` makes the Go row loop diverge and is
out of scope), and mutation is modelled by explicit state passing.
Children that are not layout-participating (`KiToNode2D` returning nil) are
skipped by every loop in the source; the embedded child lists hold exactly
the participating children.
-/

namespace GiLayout

/-- The two layout axes (`Dims2D` in the source: `X`, `Y`). -/
inductive Dims2D where
  | X
  | Y
deriving DecidableEq, Repr

/-- `Vec2D` from the geometry support code: a 2D vector of scalars. -/
structure Vec2D where
  x : ℚ
  y : ℚ
deriving DecidableEq, Repr

/-- The zero vector (`Vec2DZero`). -/
def Vec2D.zero : Vec2D := ⟨0, 0⟩

/-- `Vec2D.Dim`: component along a given axis. -/
def Vec2D.dim (v : Vec2D) : Dims2D → ℚ
  | .X => v.x
  | .Y => v.y

/-- `Vec2D.SetDim`: replace the component along a given axis. -/
def Vec2D.setDim (v : Vec2D) : Dims2D → ℚ → Vec2D
  | .X, q => ⟨q, v.y⟩
  | .Y, q => ⟨v.x, q⟩

/-- `Vec2D.Add`: componentwise sum. -/
def Vec2D.add (a b : Vec2D) : Vec2D := ⟨a.x + b.x, a.y + b.y⟩

/-- `Vec2D.Max` / `Vec2D.SetMax`: componentwise maximum. -/
def Vec2D.max2 (a b : Vec2D) : Vec2D := ⟨max a.x b.x, max a.y b.y⟩

/-- `Vec2D.SetMaxDim`: maximum with a scalar along one axis. -/
def Vec2D.setMaxDim (v : Vec2D) (d : Dims2D) (q : ℚ) : Vec2D :=
  v.setDim d (max (v.dim d) q)

/-- `Vec2D.SetAddVal`: add a scalar to both components. -/
def Vec2D.setAddVal (v : Vec2D) (q : ℚ) : Vec2D := ⟨v.x + q, v.y + q⟩

/-- `Vec2D.SubVal`: subtract a scalar from both components. -/
def Vec2D.subVal (v : Vec2D) (q : ℚ) : Vec2D := ⟨v.x - q, v.y - q⟩

/-- Modelled from the spec: `Vec2D.SetMinPos` lives in the geometry support
file that is not under `src/`.  It clamps each component of `a` to the upper
bound `b` only where that bound is an active constraint: per the source's own
`SizePrefs.Max` documentation (`0 = no constraint, neg = stretch`), a bound
`≤ 0` leaves the component untouched, so the clamp applies only where the
bound is strictly positive. -/
def Vec2D.setMinPos (a b : Vec2D) : Vec2D :=
  ⟨if 0 < b.x then min a.x b.x else a.x,
   if 0 < b.y then min a.y b.y else a.y⟩

/-- The `Align` enumeration from the source. -/
inductive Align where
  | left
  | top
  | center
  | middle
  | right
  | bottom
  | baseline
  | justify
  | spaceAround
  | flexStart
  | flexEnd
  | textTop
  | textBottom
  | sub
  | sup
deriving DecidableEq, Repr

/-- `IsAlignStart`. -/
def isAlignStart (a : Align) : Bool :=
  a = .left || a = .top || a = .flexStart || a = .textTop

/-- `IsAlignMiddle`. -/
def isAlignMiddle (a : Align) : Bool :=
  a = .center || a = .middle

/-- `IsAlignEnd`. -/
def isAlignEnd (a : Align) : Bool :=
  a = .right || a = .bottom || a = .flexEnd || a = .textBottom

/-- `SizePrefs`: per-node Need/Pref/Max size constraint vectors. -/
structure SizePrefs where
  need : Vec2D
  pref : Vec2D
  max : Vec2D
deriving DecidableEq, Repr

/-- `SizePrefs.HasMaxStretch`: `Max < 0` means "may stretch without bound". -/
def SizePrefs.hasMaxStretch (sp : SizePrefs) (d : Dims2D) : Bool :=
  sp.max.dim d < 0

/-- `SizePrefs.CanStretchNeed`: `Pref > Need` means room to grow past Need. -/
def SizePrefs.canStretchNeed (sp : SizePrefs) (d : Dims2D) : Bool :=
  sp.need.dim d < sp.pref.dim d

/-- `LayoutData`: the per-node layout state mutated by the passes.  Margins
and grid position fields of the source structure are carried by the grid
child record below where they matter. -/
structure LayoutData where
  size : SizePrefs
  allocSize : Vec2D
  allocPos : Vec2D
  allocPosRel : Vec2D
  allocPosOrig : Vec2D
deriving DecidableEq, Repr

/-- The all-zero `LayoutData` (Go zero value, also `Reset` output). -/
def layoutDataZero : LayoutData :=
  { size := ⟨Vec2D.zero, Vec2D.zero, Vec2D.zero⟩
    allocSize := Vec2D.zero
    allocPos := Vec2D.zero
    allocPosRel := Vec2D.zero
    allocPosOrig := Vec2D.zero }

instance : Inhabited LayoutData := ⟨layoutDataZero⟩

/-- Build a `LayoutData` from size constraints (as `SetFromStyle` seeds them,
with all allocation fields reset to zero). -/
def mkLD (need pref mx : Vec2D) : LayoutData :=
  { layoutDataZero with size := ⟨need, pref, mx⟩ }

/-- `LayoutData.UpdateSizes`: re-clamp Need/Pref after a pass.
Source order: `Need.SetMax(AllocSize)`, `Pref.SetMax(Need)`,
`Need.SetMinPos(Max)`, `Pref.SetMinPos(Max)`. -/
def updateSizes (ld : LayoutData) : LayoutData :=
  let n1 := ld.size.need.max2 ld.allocSize
  let p1 := ld.size.pref.max2 n1
  let n2 := n1.setMinPos ld.size.max
  let p2 := p1.setMinPos ld.size.max
  { ld with size := { ld.size with need := n2, pref := p2 } }

/-- The `Layouts` enumeration. -/
inductive Layouts where
  | row
  | col
  | grid
  | rowFlow
  | colFlow
  | stacked
deriving DecidableEq, Repr

/-- `Layout.SumDim`: sum children along this axis? (else take the max). -/
def sumDim (lay : Layouts) (d : Dims2D) : Bool :=
  (d = .X && lay = .row) || (d = .Y && lay = .col)

/-- `Layout.GatherSizes`: first pass, non-grid.  Takes the layout kind, the
box spacing `spc` (`Style.BoxSpace()`), the container's own `LayoutData` and
the participating children; returns the updated container data and the
children (each of which was passed through `UpdateSizes` by the source
loop). -/
def gatherSizes (lay : Layouts) (spc : ℚ) (ld : LayoutData)
    (kids : List LayoutData) : LayoutData × List LayoutData :=
  if kids = [] then (ld, kids) else
  let kids1 := kids.map updateSizes
  let sumNeed := (kids1.map (fun k => k.size.need)).foldl Vec2D.add Vec2D.zero
  let sumPref := (kids1.map (fun k => k.size.pref)).foldl Vec2D.add Vec2D.zero
  let maxNeed := (kids1.map (fun k => k.size.need)).foldl Vec2D.max2 Vec2D.zero
  let maxPref := (kids1.map (fun k => k.size.pref)).foldl Vec2D.max2 Vec2D.zero
  let pickN := fun d => if sumDim lay d then sumNeed.dim d else maxNeed.dim d
  let pickP := fun d => if sumDim lay d then sumPref.dim d else maxPref.dim d
  let n1 := (ld.size.need.setMaxDim .X (pickN .X)).setMaxDim .Y (pickN .Y)
  let p1 := (ld.size.pref.setMaxDim .X (pickP .X)).setMaxDim .Y (pickP .Y)
  let n2 := n1.setAddVal (2 * spc)
  let p2 := p1.setAddVal (2 * spc)
  (updateSizes { ld with size := { ld.size with need := n2, pref := p2 } }, kids1)

/-- A grid child: the layout style fields read by `GatherSizesGrid`
(`Col`, `ColSpan`, `Row`, `RowSpan`, all Go ints, non-negative in scope)
together with the child's `LayoutData`. -/
structure GridChild where
  col : ℕ
  colSpan : ℕ
  row : ℕ
  rowSpan : ℕ
  ld : LayoutData
deriving DecidableEq, Repr

/-- The column-count scan of `GatherSizesGrid`: start from the explicit
`Columns` style and take `max` with `Col+ColSpan` of every child that
specifies a column (`Col > 0`). -/
def gridColsBase (columns : ℕ) (kids : List GridChild) : ℕ :=
  kids.foldl (fun a k => if 0 < k.col then max a (k.col + k.colSpan) else a) columns

/-- The row-count scan of `GatherSizesGrid`: `max` of `Row+RowSpan` over
children that specify a row (`Row > 0`), starting from 0. -/
def gridRowsBase (kids : List GridChild) : ℕ :=
  kids.foldl (fun a k => if 0 < k.row then max a (k.row + k.rowSpan) else a) 0

/-- The `for rows*cols < sz { rows++ }` loop of `GatherSizesGrid`.  The
`cols = 0` guard makes the recursion total; that case is unreachable from
`gridDims` when there is at least one child. -/
def bumpRows (sz cols : ℕ) (rows : ℕ) : ℕ :=
  if h : cols = 0 then rows
  else if h2 : rows * cols < sz then bumpRows sz cols (rows + 1) else rows
termination_by sz - rows * cols
decreasing_by
  have hc : 1 ≤ cols := Nat.one_le_iff_ne_zero.mpr h
  have e : (rows + 1) * cols = rows * cols + cols := by ring
  omega

/-- Grid dimension resolution, lines 376..406 of `layout.go`: resolve
`cols` (explicit / observed / `int(math.Sqrt(sz))`, which is the floor of
the square root for the integer counts in scope, i.e. `Nat.sqrt`), then
`rows` (observed / `sz / cols`), then grow `rows` until `rows*cols ≥ sz`. -/
def gridDims (columns : ℕ) (kids : List GridChild) : ℕ × ℕ :=
  let sz := kids.length
  let cols0 := gridColsBase columns kids
  let rows0 := gridRowsBase kids
  let cols := if cols0 = 0 then Nat.sqrt sz else cols0
  let rows1 := if rows0 = 0 then sz / cols else rows0
  (cols, bumpRows sz cols rows1)

/-- Per-child update of a row track, lines 449..461: max-aggregate the
child's vertical Need/Pref into the track, and apply the stretch-dominates
rule on the track's `Max.Y` (tested against the child's `Max.Y`).
A track index beyond the sequence is a Go runtime panic; it is modelled as
a no-op and is unreachable for span values ≥ 1. -/
def updateTrackRow (tracks : List LayoutData) (row : ℕ) (kld : LayoutData) :
    List LayoutData :=
  match tracks.get? row with
  | none => tracks
  | some t =>
    let s1 := { t.size with
      need := t.size.need.setMaxDim .Y (kld.size.need.y)
      pref := t.size.pref.setMaxDim .Y (kld.size.pref.y) }
    let s2 :=
      if 0 ≤ s1.max.y then
        if kld.size.max.y < 0 then { s1 with max := s1.max.setDim .Y (-1) }
        else { s1 with max := s1.max.setMaxDim .Y (kld.size.max.y) }
      else s1
    tracks.set row { t with size := s2 }

/-- Per-child update of a column track, lines 451..468: max-aggregate the
child's horizontal Need/Pref; the stretch test on the source line 463 reads
the child's `Max.Y` (not `Max.X`) while updating the track's `Max.X`, and
that is reproduced verbatim here. -/
def updateTrackCol (tracks : List LayoutData) (col : ℕ) (kld : LayoutData) :
    List LayoutData :=
  match tracks.get? col with
  | none => tracks
  | some t =>
    let s1 := { t.size with
      need := t.size.need.setMaxDim .X (kld.size.need.x)
      pref := t.size.pref.setMaxDim .X (kld.size.pref.x) }
    let s2 :=
      if 0 ≤ s1.max.x then
        if kld.size.max.y < 0 then { s1 with max := s1.max.setDim .X (-1) }
        else { s1 with max := s1.max.setMaxDim .X (kld.size.max.x) }
      else s1
    tracks.set col { t with size := s2 }

/-- The per-child loop of `GatherSizesGrid` (raster cursor with explicit
overrides and wrap-around), returning the updated children and both track
sequences. -/
def gridGatherLoop (cols rows : ℕ) :
    List GridChild → ℕ → ℕ → List LayoutData → List LayoutData →
    List GridChild × List LayoutData × List LayoutData
  | [], _, _, rowD, colD => ([], rowD, colD)
  | k :: ks, col0, row0, rowD, colD =>
    let kld := updateSizes k.ld
    let col := if 0 < k.col then k.col else col0
    let row := if 0 < k.row then k.row else row0
    let rowD1 := updateTrackRow rowD row kld
    let colD1 := updateTrackCol colD col kld
    let next : ℕ × ℕ :=
      if cols ≤ col + 1 then
        (0, if rows ≤ row + 1 then 0 else row + 1)
      else (col + 1, row)
    let rest := gridGatherLoop cols rows ks next.1 next.2 rowD1 colD1
    ({ k with ld := kld } :: rest.1, rest.2.1, rest.2.2)

/-- Result record of `GatherSizesGrid` (the fields of `Layout` the pass
mutates). -/
structure GridGather where
  ld : LayoutData
  kids : List GridChild
  rowData : List LayoutData
  colData : List LayoutData
  gridSize : ℕ × ℕ
deriving DecidableEq, Repr

/-- `Layout.GatherSizesGrid`: first pass, grid version.  `gridRows`/`gridCols`
are the prior track sequences (`GridData`), whose `Max` values persist across
frames; `gridSize0` the prior `GridSize`. -/
def gatherSizesGrid (columns : ℕ) (spc : ℚ) (ld : LayoutData)
    (kids : List GridChild) (gridRows gridCols : List LayoutData)
    (gridSize0 : ℕ × ℕ) : GridGather :=
  if kids = [] then ⟨ld, kids, gridRows, gridCols, gridSize0⟩ else
  let dims := gridDims columns kids
  let cols := dims.1
  let rows := dims.2
  let rowD0 := if gridRows.length ≠ rows then List.replicate rows layoutDataZero else gridRows
  let colD0 := if gridCols.length ≠ cols then List.replicate cols layoutDataZero else gridCols
  let resetTrack := fun (t : LayoutData) =>
    { t with size := { t.size with need := Vec2D.zero, pref := Vec2D.zero } }
  let rowD1 := rowD0.map resetTrack
  let colD1 := colD0.map resetTrack
  let loop := gridGatherLoop cols rows kids 0 0 rowD1 colD1
  let kids1 := loop.1
  let rowD2 := loop.2.1
  let colD2 := loop.2.2
  let sumNeed : Vec2D :=
    ⟨(colD2.map (fun t => t.size.need.x)).sum, (rowD2.map (fun t => t.size.need.y)).sum⟩
  let sumPref : Vec2D :=
    ⟨(colD2.map (fun t => t.size.pref.x)).sum, (rowD2.map (fun t => t.size.pref.y)).sum⟩
  let n1 := ld.size.need.max2 sumNeed
  let p1 := ld.size.pref.max2 sumPref
  let n2 := n1.setAddVal (2 * spc)
  let p2 := p1.setAddVal (2 * spc)
  let ld1 := updateSizes { ld with size := { ld.size with need := n2, pref := p2 } }
  ⟨ld1, kids1, rowD2, colD2, (cols, rows)⟩

/-- The column count the claim text prescribes when nothing is specified:
`round(sqrt(childCount))` (rounding to nearest, written out over ℕ).
This follows the claim's words, for comparison with the source's
truncation; it is not part of the embedding of the code. -/
def claimRoundSqrt (n : ℕ) : ℕ :=
  let k := Nat.sqrt n
  if n ≤ k * k + k then k else k + 1

/-- The baseline decision of `LayoutAll` (and `LayoutGridDim` /
`LayoutSingleImpl`): use the Pref baseline unless `avail - pref < -0.1`. -/
def laUsePref (avail prefC : ℚ) : Bool :=
  !(avail - prefC < -(1/10 : ℚ))

/-- The clamped leftover space of `LayoutAll`: `max(avail - targ, 0)` with
`targ` the active baseline. -/
def laExtra (avail prefC needC : ℚ) : ℚ :=
  max (avail - (if laUsePref avail prefC then prefC else needC)) 0

/-- The control data `LayoutAll` computes before its allocation loop
(lines 605..673): the baseline choice, the clamped extra, the stretch-mode
flags, the justify spacing and the starting position. -/
structure LACtx where
  usePref : Bool
  strMax : Bool
  strNeed : Bool
  addSpace : Bool
  extra : ℚ
  tot : ℚ
  extraSpace : ℚ
  pos0 : ℚ
deriving DecidableEq, Repr

/-- Compute the `LACtx` for `LayoutAll`: `avail`, `pref`, `need` are the
container's allocated size and recorded Pref/Need on the axis, each minus
`2*spc`.  Candidates with `Max < 0` (Pref baseline) or
`Max < 0 ∨ Pref > Need` (Need baseline) are counted and their Pref values
summed exactly as in the source loops. -/
def mkLACtx (dim : Dims2D) (al : Align) (spc allocSz contPref contNeed : ℚ)
    (kids : List LayoutData) : LACtx :=
  let avail := allocSz - 2 * spc
  let prefC := contPref - 2 * spc
  let needC := contNeed - 2 * spc
  let usePref : Bool := laUsePref avail prefC
  let extra : ℚ := laExtra avail prefC needC
  let cMax := kids.filter (fun k => k.size.hasMaxStretch dim)
  let cNeed := kids.filter (fun k => k.size.hasMaxStretch dim || k.size.canStretchNeed dim)
  let strMax : Bool := usePref && decide (0 < extra) && decide (0 < cMax.length)
  let strNeed : Bool := !usePref && decide (0 < extra) && decide (0 < cNeed.length)
  let tot : ℚ :=
    if strMax then (cMax.map (fun k => k.size.pref.dim dim)).sum
    else if strNeed then (cNeed.map (fun k => k.size.pref.dim dim)).sum
    else 0
  let sz := kids.length
  let addSpace : Bool :=
    decide (1 < sz) && decide (0 < extra) && decide (al = Align.justify) && !strNeed && !strMax
  let extraSpace : ℚ := if addSpace then extra / ((sz : ℚ) - 1) else 0
  let pos0 : ℚ := spc + (if isAlignEnd al && !strNeed && !strMax then extra else 0)
  ⟨usePref, strMax, strNeed, addSpace, extra, tot, extraSpace, pos0⟩

/-- The per-child size computation of the `LayoutAll` loop body
(lines 680..696): baseline Pref or Need, plus the proportional share
`extra * (pref / stretchTot)` for the stretch candidates of the active
mode. -/
def layoutAllSizeOf (dim : Dims2D) (c : LACtx) (ld : LayoutData) : ℚ :=
  let base := if c.usePref then ld.size.pref.dim dim else ld.size.need.dim dim
  if c.strMax then
    if ld.size.hasMaxStretch dim then base + c.extra * (ld.size.pref.dim dim / c.tot) else base
  else if c.strNeed then
    if ld.size.hasMaxStretch dim || ld.size.canStretchNeed dim then
      base + c.extra * (ld.size.pref.dim dim / c.tot)
    else base
  else base

/-- The allocation loop of `LayoutAll` (lines 675..704): positions accumulate
from `pos0`, a justify gap is inserted before every item but the first, and
each child's `AllocSize`/`AllocPosRel` on the axis are set. -/
def layoutAllLoop (dim : Dims2D) (c : LACtx) :
    ℕ → ℚ → List LayoutData → List LayoutData
  | _, _, [] => []
  | i, pos, ld :: rest =>
    let size := layoutAllSizeOf dim c ld
    let pos1 := if c.addSpace && decide (0 < i) then pos + c.extraSpace else pos
    let ld1 := { ld with
      allocSize := ld.allocSize.setDim dim size
      allocPosRel := ld.allocPosRel.setDim dim pos1 }
    ld1 :: layoutAllLoop dim c (i + 1) (pos1 + size) rest

/-- `Layout.LayoutAll`: distribute the container's allocated extent on one
axis over the children.  `al` is the container's alignment on the axis,
`spc` its box spacing, `allocSz`/`contPref`/`contNeed` its allocated size
and recorded Pref/Need on the axis. -/
def layoutAll (dim : Dims2D) (al : Align) (spc allocSz contPref contNeed : ℚ)
    (kids : List LayoutData) : List LayoutData :=
  if kids.length = 0 then kids else
  let c := mkLACtx dim al spc allocSz contPref contNeed kids
  layoutAllLoop dim c 0 c.pos0 kids

/-- The `Overflow` style enumeration. -/
inductive Overflow where
  | auto
  | scroll
  | visible
  | hidden
deriving DecidableEq, Repr

/-- The overflow state of a container mutated by `ManageOverflow`. -/
structure OverflowState where
  extraSize : Vec2D
  hasHScroll : Bool
  hasVScroll : Bool
deriving DecidableEq, Repr

/-- `Layout.ManageOverflow` (lines 890..922), restricted to the state it
decides: with no children it returns at once; otherwise it resets
`ExtraSize`/`HasHScroll`/`HasVScroll` and, unless overflow is `hidden`,
recomputes them by comparing `ChildSize` against `AllocSize - spc` per
axis, reserving a scrollbar-width strip on the other axis. -/
def manageOverflow (kids : ℕ) (overflow : Overflow) (spc sbw : ℚ)
    (allocSize childSize : Vec2D) (st : OverflowState) : OverflowState :=
  if kids = 0 then st else
  let avail := allocSize.subVal spc
  let st1 : OverflowState := ⟨Vec2D.zero, false, false⟩
  if overflow = .hidden then st1 else
  let hasH : Bool := avail.x < childSize.x
  let hasV : Bool := avail.y < childSize.y
  { extraSize := ⟨if hasV then sbw else 0, if hasH then sbw else 0⟩
    hasHScroll := hasH
    hasVScroll := hasV }

/-- The `SplitView` state touched by the split operations: the number of
children, the `Splits` shares and the optional `SavedSplits` snapshot
(`none` models a nil Go slice). -/
structure SplitView where
  kids : ℕ
  splits : List ℚ
  savedSplits : Option (List ℚ)
deriving DecidableEq, Repr

/-- `SplitView.UpdateSplits` (lines 1353..1376): with children present,
a `Splits` sequence of the wrong length is replaced by a fresh all-zero
sequence (`make`), a zero sum is replaced by equal shares `1/N` (making the
sum 1), and every entry is scaled by `1/sum`. -/
def updateSplits (g : SplitView) : SplitView :=
  if g.kids = 0 then g else
  let s0 := if g.splits.length ≠ g.kids then List.replicate g.kids (0 : ℚ) else g.splits
  let sum0 := s0.sum
  let s1 := if sum0 = 0 then List.replicate g.kids ((1 : ℚ) / g.kids) else s0
  let sum1 := if sum0 = 0 then (1 : ℚ) else sum0
  { g with splits := s1.map (fun x => x * (1 / sum1)) }

/-- The copy loop of `SetSplits`: overwrite the first `mx` entries of `s`
with those of `args` (`mx ≤ args.length` at every call site; running past
the end of `s` would be a Go panic and is modelled by stopping). -/
def overwriteFirst : ℕ → List ℚ → List ℚ → List ℚ
  | 0, s, _ => s
  | _ + 1, s, [] => s
  | n + 1, s, a :: as =>
    match s with
    | [] => []
    | _ :: ss => a :: overwriteFirst n ss as

/-- `SplitView.SetSplits` (lines 1379..1388): copy the first
`min(N, len(args))` values, then renormalize. -/
def setSplits (g : SplitView) (args : List ℚ) : SplitView :=
  let mx := min g.kids args.length
  updateSplits { g with splits := overwriteFirst mx g.splits args }

/-- `SplitView.SaveSplits` (lines 1391..1402): snapshot `Splits` (no-op when
empty). -/
def saveSplits (g : SplitView) : SplitView :=
  if g.splits.length = 0 then g else { g with savedSplits := some g.splits }

/-- `SplitView.RestoreSplits` (lines 1405..1410): re-apply the snapshot if
one exists. -/
def restoreSplits (g : SplitView) : SplitView :=
  match g.savedSplits with
  | none => g
  | some sv => setSplits g sv

/-- `SplitView.CollapseChild` (lines 1413..1426): optionally save, zero the
shares at the listed indices that satisfy `0 ≤ idx < N` (others are skipped
silently; the function has no error result), then renormalize. -/
def collapseChild (g : SplitView) (save : Bool) (idxs : List ℤ) : SplitView :=
  let g1 := if save then saveSplits g else g
  let s1 := idxs.foldl
    (fun s idx => if 0 ≤ idx ∧ idx < (g.kids : ℤ) then s.set idx.toNat 0 else s)
    g1.splits
  updateSplits { g1 with splits := s1 }

/-- Modelled from the spec: `ki.Slice.ValidIndex` (the child-sequence
container lives outside `src/`).  Per the spec's error-handling design, an
index outside the child sequence is reported as an invalid-argument error
and in-range indices succeed. -/
def validIndex (n : ℕ) (idx : ℤ) : Except String ℤ :=
  if 0 ≤ idx ∧ idx < (n : ℤ) then .ok idx else .error "invalid index"

/-- `Layout.ShowChildAtIndex` (lines 1091..1098): validate the index, then
point `StackTop` at the child; on error, return it with `StackTop`
untouched.  `StackTop` is modelled as the index of the designated child. -/
def showChildAtIndex (kids : ℕ) (stackTop : Option ℤ) (idx : ℤ) :
    Option String × Option ℤ :=
  match validIndex kids idx with
  | .error e => (some e, stackTop)
  | .ok i => (none, some i)

/-- The size invariant of §3 of the spec, with the `Max` clamp active only
where `Max > 0` (the source's `Max` documentation: `0 = no constraint,
neg = stretch`): `Need ≤ Pref` componentwise, and both bounded by `Max` on
every axis with `Max > 0`. -/
def sizeInvariant (s : SizePrefs) : Prop :=
  (s.need.x ≤ s.pref.x ∧ s.need.y ≤ s.pref.y) ∧
  (0 < s.max.x → s.need.x ≤ s.max.x ∧ s.pref.x ≤ s.max.x) ∧
  (0 < s.max.y → s.need.y ≤ s.max.y ∧ s.pref.y ≤ s.max.y)

theorem Vec2D.dim_setDim (v : Vec2D) (d : Dims2D) (q : ℚ) :
    (v.setDim d q).dim d = q := by
  cases d <;> rfl

theorem layoutAllLoop_getD (dim : Dims2D) (c : LACtx) :
    ∀ (kids : List LayoutData) (i : ℕ) (pos : ℚ) (n : ℕ), n < kids.length →
      ((layoutAllLoop dim c i pos kids).getD n layoutDataZero).allocSize.dim dim
        = layoutAllSizeOf dim c (kids.getD n layoutDataZero)
  | [], _, _, _, h => absurd h (by simp)
  | ld :: rest, i, pos, 0, _ => by
    simp only [layoutAllLoop, List.getD_cons_zero]
    exact Vec2D.dim_setDim _ _ _
  | ld :: rest, i, pos, n + 1, h => by
    simp only [layoutAllLoop, List.getD_cons_succ]
    exact layoutAllLoop_getD dim c rest (i + 1) _ n (by simpa using Nat.lt_of_succ_lt_succ h)

theorem laUsePref_of_fits (avail prefC : ℚ) (hx : 0 < avail - prefC) :
    laUsePref avail prefC = true := by
  simp only [laUsePref, Bool.not_eq_true', decide_eq_false_iff_not]
  linarith

theorem laUsePref_of_fall (avail prefC : ℚ) (hx : avail - prefC < -(1/10 : ℚ)) :
    laUsePref avail prefC = false := by
  simp [laUsePref]
  linarith

theorem laExtra_of_fits (avail prefC needC : ℚ) (hx : 0 < avail - prefC) :
    laExtra avail prefC needC = avail - prefC := by
  rw [laExtra, laUsePref_of_fits avail prefC hx, if_pos rfl]
  exact max_eq_left (le_of_lt hx)

theorem laExtra_of_fall (avail prefC needC : ℚ) (hx : avail - prefC < -(1/10 : ℚ)) :
    laExtra avail prefC needC = max (avail - needC) 0 := by
  rw [laExtra, laUsePref_of_fall avail prefC hx]
  simp

theorem laExtra_nonneg (avail prefC needC : ℚ) : 0 ≤ laExtra avail prefC needC :=
  le_max_right _ _

theorem mkLACtx_usePref_of_fits (dim : Dims2D) (al : Align)
    (spc allocSz contPref contNeed : ℚ) (kids : List LayoutData)
    (hx : 0 < allocSz - contPref) :
    (mkLACtx dim al spc allocSz contPref contNeed kids).usePref = true := by
  have hx2 : 0 < (allocSz - 2 * spc) - (contPref - 2 * spc) := by linarith
  simp only [mkLACtx, laUsePref_of_fits _ _ hx2]

theorem mkLACtx_extra_of_fits (dim : Dims2D) (al : Align)
    (spc allocSz contPref contNeed : ℚ) (kids : List LayoutData)
    (hx : 0 < allocSz - contPref) :
    (mkLACtx dim al spc allocSz contPref contNeed kids).extra = allocSz - contPref := by
  have hx2 : 0 < (allocSz - 2 * spc) - (contPref - 2 * spc) := by linarith
  simp only [mkLACtx, laExtra_of_fits _ _ _ hx2]
  ring

theorem mkLACtx_strNeed_of_fits (dim : Dims2D) (al : Align)
    (spc allocSz contPref contNeed : ℚ) (kids : List LayoutData)
    (hx : 0 < allocSz - contPref) :
    (mkLACtx dim al spc allocSz contPref contNeed kids).strNeed = false := by
  have hx2 : 0 < (allocSz - 2 * spc) - (contPref - 2 * spc) := by linarith
  simp only [mkLACtx, laUsePref_of_fits _ _ hx2, Bool.not_true, Bool.false_and]

theorem mkLACtx_strMax_of_fits (dim : Dims2D) (al : Align)
    (spc allocSz contPref contNeed : ℚ) (kids : List LayoutData)
    (hx : 0 < allocSz - contPref) :
    (mkLACtx dim al spc allocSz contPref contNeed kids).strMax
      = decide (0 < (kids.filter (fun k => k.size.hasMaxStretch dim)).length) := by
  have hx2 : 0 < (allocSz - 2 * spc) - (contPref - 2 * spc) := by linarith
  have he : laExtra (allocSz - 2 * spc) (contPref - 2 * spc) (contNeed - 2 * spc)
      = (allocSz - 2 * spc) - (contPref - 2 * spc) := laExtra_of_fits _ _ _ hx2
  simp only [mkLACtx, laUsePref_of_fits _ _ hx2, he, hx2, decide_True, Bool.true_and]

theorem mkLACtx_tot_of_fits (dim : Dims2D) (al : Align)
    (spc allocSz contPref contNeed : ℚ) (kids : List LayoutData)
    (hx : 0 < allocSz - contPref)
    (hne : (kids.filter (fun k => k.size.hasMaxStretch dim)) ≠ []) :
    (mkLACtx dim al spc allocSz contPref contNeed kids).tot
      = ((kids.filter (fun k => k.size.hasMaxStretch dim)).map
          (fun k => k.size.pref.dim dim)).sum := by
  have hx2 : 0 < (allocSz - 2 * spc) - (contPref - 2 * spc) := by linarith
  have he : laExtra (allocSz - 2 * spc) (contPref - 2 * spc) (contNeed - 2 * spc)
      = (allocSz - 2 * spc) - (contPref - 2 * spc) := laExtra_of_fits _ _ _ hx2
  have hlen : 0 < (kids.filter (fun k => k.size.hasMaxStretch dim)).length :=
    List.length_pos.mpr hne
  simp only [mkLACtx, laUsePref_of_fits _ _ hx2, he, hx2, hlen, decide_True,
    Bool.true_and, if_pos rfl]
  simp

/-- C1: In `LayoutAll`, when the preferred baseline is used (`avail` exceeds
the container's recorded Pref) and `extra > 0`, the stretch candidates are
exactly the children with `Max < 0` on the axis, and each candidate's
allocated size equals its Pref plus `extra * (own Pref / Σ candidates'
Pref)`; non-candidates get exactly their Pref. -/
theorem c1_stretch_proportional
    (dim : Dims2D) (al : Align) (spc allocSz contPref contNeed : ℚ)
    (kids : List LayoutData)
    (hx : 0 < allocSz - contPref)
    (htot : (kids.filter (fun k => k.size.hasMaxStretch dim)) = [] ∨
        ((kids.filter (fun k => k.size.hasMaxStretch dim)).map
          (fun k => k.size.pref.dim dim)).sum ≠ 0)
    (n : ℕ) (hn : n < kids.length) :
    ((layoutAll dim al spc allocSz contPref contNeed kids).getD n
        layoutDataZero).allocSize.dim dim
      = (kids.getD n layoutDataZero).size.pref.dim dim +
        (if (kids.getD n layoutDataZero).size.max.dim dim < 0 then
          (allocSz - contPref) * ((kids.getD n layoutDataZero).size.pref.dim dim /
            ((kids.filter (fun k => k.size.hasMaxStretch dim)).map
              (fun k => k.size.pref.dim dim)).sum)
        else 0) := by
  have hlen : ¬(kids.length = 0) := by omega
  rw [layoutAll, if_neg hlen, layoutAllLoop_getD dim _ kids 0 _ n hn]
  have hu := mkLACtx_usePref_of_fits dim al spc allocSz contPref contNeed kids hx
  have hsN := mkLACtx_strNeed_of_fits dim al spc allocSz contPref contNeed kids hx
  have hsM := mkLACtx_strMax_of_fits dim al spc allocSz contPref contNeed kids hx
  have hkid : kids.getD n layoutDataZero ∈ kids := by
    rw [List.getD_eq_get kids layoutDataZero hn]
    exact List.get_mem kids n hn
  rcases htot with hemp | hS
  · have hM : (mkLACtx dim al spc allocSz contPref contNeed kids).strMax = false := by
      rw [hsM, hemp]
      simp
    have hax : ¬((kids.getD n layoutDataZero).size.max.dim dim < 0) := fun hlt =>
      (List.filter_eq_nil.mp hemp _ hkid) (decide_eq_true hlt)
    rw [if_neg hax, add_zero, layoutAllSizeOf, hM, hsN, hu]
    simp
  · have hne : (kids.filter (fun k => k.size.hasMaxStretch dim)) ≠ [] := by
      intro h
      rw [h] at hS
      simp at hS
    have hM : (mkLACtx dim al spc allocSz contPref contNeed kids).strMax = true := by
      rw [hsM]
      simp [List.length_pos.mpr hne]
    have htoteq := mkLACtx_tot_of_fits dim al spc allocSz contPref contNeed kids hx hne
    have hext := mkLACtx_extra_of_fits dim al spc allocSz contPref contNeed kids hx
    by_cases hlt : (kids.getD n layoutDataZero).size.max.dim dim < 0
    · have hbs : (kids.getD n layoutDataZero).size.hasMaxStretch dim = true :=
        decide_eq_true hlt
      rw [if_pos hlt, layoutAllSizeOf, hM, hu, hbs, htoteq, hext]
      simp
    · have hbs : (kids.getD n layoutDataZero).size.hasMaxStretch dim = false :=
        decide_eq_false hlt
      rw [if_neg hlt, add_zero, layoutAllSizeOf, hM, hu, hbs]
      simp

/-- Witness for C1: the spec's concrete instance — two children with
`Max.X = -1` and preferred widths 10 and 30 in a row with `extra = 40`
receive exactly 10 and 30 of additional width (sizes 20 and 60). -/
theorem c1_stretch_proportional_witness :
    ((layoutAll .X .left 0 80 40 0
        [mkLD ⟨0,0⟩ ⟨10,0⟩ ⟨-1,0⟩, mkLD ⟨0,0⟩ ⟨30,0⟩ ⟨-1,0⟩]).getD 0
        layoutDataZero).allocSize.dim .X = 20 ∧
    ((layoutAll .X .left 0 80 40 0
        [mkLD ⟨0,0⟩ ⟨10,0⟩ ⟨-1,0⟩, mkLD ⟨0,0⟩ ⟨30,0⟩ ⟨-1,0⟩]).getD 1
        layoutDataZero).allocSize.dim .X = 60 := by
  have hS : ((([mkLD ⟨0,0⟩ ⟨10,0⟩ ⟨-1,0⟩, mkLD ⟨0,0⟩ ⟨30,0⟩ ⟨-1,0⟩] :
      List LayoutData).filter (fun k => k.size.hasMaxStretch .X)).map
        (fun k => k.size.pref.dim .X)).sum ≠ 0 := by
    norm_num [List.filter, List.sum, SizePrefs.hasMaxStretch, mkLD, layoutDataZero,
      Vec2D.dim, Vec2D.zero]
  constructor
  · have h0 := c1_stretch_proportional .X .left 0 80 40 0
      [mkLD ⟨0,0⟩ ⟨10,0⟩ ⟨-1,0⟩, mkLD ⟨0,0⟩ ⟨30,0⟩ ⟨-1,0⟩]
      (by norm_num) (Or.inr hS) 0 (by norm_num)
    rw [h0]
    norm_num [List.filter, List.sum, List.getD, SizePrefs.hasMaxStretch, mkLD,
      layoutDataZero, Vec2D.dim, Vec2D.zero]
  · have h1 := c1_stretch_proportional .X .left 0 80 40 0
      [mkLD ⟨0,0⟩ ⟨10,0⟩ ⟨-1,0⟩, mkLD ⟨0,0⟩ ⟨30,0⟩ ⟨-1,0⟩]
      (by norm_num) (Or.inr hS) 1 (by norm_num)
    rw [h1]
    norm_num [List.filter, List.sum, List.getD, SizePrefs.hasMaxStretch, mkLD,
      layoutDataZero, Vec2D.dim, Vec2D.zero]

theorem mkLACtx_usePref_eq (dim : Dims2D) (al : Align)
    (spc allocSz contPref contNeed : ℚ) (kids : List LayoutData) :
    (mkLACtx dim al spc allocSz contPref contNeed kids).usePref
      = laUsePref (allocSz - 2 * spc) (contPref - 2 * spc) := rfl

theorem mkLACtx_extra_eq (dim : Dims2D) (al : Align)
    (spc allocSz contPref contNeed : ℚ) (kids : List LayoutData) :
    (mkLACtx dim al spc allocSz contPref contNeed kids).extra
      = laExtra (allocSz - 2 * spc) (contPref - 2 * spc) (contNeed - 2 * spc) := rfl

theorem mkLACtx_strMax_eq (dim : Dims2D) (al : Align)
    (spc allocSz contPref contNeed : ℚ) (kids : List LayoutData) :
    (mkLACtx dim al spc allocSz contPref contNeed kids).strMax
      = ((mkLACtx dim al spc allocSz contPref contNeed kids).usePref
          && decide (0 < (mkLACtx dim al spc allocSz contPref contNeed kids).extra)
          && decide (0 < (kids.filter (fun k => k.size.hasMaxStretch dim)).length)) := rfl

theorem mkLACtx_strNeed_eq (dim : Dims2D) (al : Align)
    (spc allocSz contPref contNeed : ℚ) (kids : List LayoutData) :
    (mkLACtx dim al spc allocSz contPref contNeed kids).strNeed
      = (!(mkLACtx dim al spc allocSz contPref contNeed kids).usePref
          && decide (0 < (mkLACtx dim al spc allocSz contPref contNeed kids).extra)
          && decide (0 < (kids.filter (fun k =>
              k.size.hasMaxStretch dim || k.size.canStretchNeed dim)).length)) := rfl

theorem mkLACtx_tot_eq (dim : Dims2D) (al : Align)
    (spc allocSz contPref contNeed : ℚ) (kids : List LayoutData) :
    (mkLACtx dim al spc allocSz contPref contNeed kids).tot
      = (if (mkLACtx dim al spc allocSz contPref contNeed kids).strMax then
          ((kids.filter (fun k => k.size.hasMaxStretch dim)).map
            (fun k => k.size.pref.dim dim)).sum
        else if (mkLACtx dim al spc allocSz contPref contNeed kids).strNeed then
          ((kids.filter (fun k =>
              k.size.hasMaxStretch dim || k.size.canStretchNeed dim)).map
            (fun k => k.size.pref.dim dim)).sum
        else 0) := rfl

theorem sum_pref_nonneg (dim : Dims2D) (l : List LayoutData)
    (h : ∀ k ∈ l, 0 ≤ k.size.pref.dim dim) :
    0 ≤ (l.map (fun k => k.size.pref.dim dim)).sum := by
  apply List.sum_nonneg
  intro x hx
  obtain ⟨k, hk, rfl⟩ := List.mem_map.mp hx
  exact h k hk

/-- C2: In `LayoutAll`, when the children's preferred sizes on the flow
axis exceed the available space by more than 0.1 (and in fact in every
case), no child is allocated below its Need, and a child that is not a
stretch candidate (`Max ≥ 0` and `Pref ≤ Need`) is allocated exactly its
Need.  The sanity hypotheses `0 ≤ Need ≤ Pref` hold for every child after a
gather pass, and the candidate Pref sums are non-zero whenever candidates
exist (a zero candidate sum is a division by zero in the source). -/
theorem c2_shrink_never_below_need
    (dim : Dims2D) (al : Align) (spc allocSz contPref contNeed : ℚ)
    (kids : List LayoutData)
    (hfall : allocSz - 2 * spc + 1/10 < (kids.map (fun k => k.size.pref.dim dim)).sum)
    (hsan : ∀ k ∈ kids, 0 ≤ k.size.need.dim dim ∧
        k.size.need.dim dim ≤ k.size.pref.dim dim)
    (htM : (kids.filter (fun k => k.size.hasMaxStretch dim)) = [] ∨
        ((kids.filter (fun k => k.size.hasMaxStretch dim)).map
          (fun k => k.size.pref.dim dim)).sum ≠ 0)
    (htN : (kids.filter (fun k =>
          k.size.hasMaxStretch dim || k.size.canStretchNeed dim)) = [] ∨
        ((kids.filter (fun k =>
            k.size.hasMaxStretch dim || k.size.canStretchNeed dim)).map
          (fun k => k.size.pref.dim dim)).sum ≠ 0)
    (n : ℕ) (hn : n < kids.length) :
    (kids.getD n layoutDataZero).size.need.dim dim ≤
      ((layoutAll dim al spc allocSz contPref contNeed kids).getD n
        layoutDataZero).allocSize.dim dim
    ∧ ((kids.getD n layoutDataZero).size.hasMaxStretch dim = false →
        (kids.getD n layoutDataZero).size.canStretchNeed dim = false →
        ((layoutAll dim al spc allocSz contPref contNeed kids).getD n
          layoutDataZero).allocSize.dim dim
          = (kids.getD n layoutDataZero).size.need.dim dim) := by
  have hlen : ¬(kids.length = 0) := by omega
  rw [layoutAll, if_neg hlen, layoutAllLoop_getD dim _ kids 0 _ n hn]
  have hkid0 : kids.getD n layoutDataZero ∈ kids := by
    rw [List.getD_eq_get kids layoutDataZero hn]
    exact List.get_mem kids n hn
  set c := mkLACtx dim al spc allocSz contPref contNeed kids with hc
  set kd := kids.getD n layoutDataZero with hkd
  clear_value c kd
  obtain ⟨hn0, hnp⟩ := hsan _ hkid0
  have hp0 : 0 ≤ kd.size.pref.dim dim := le_trans hn0 hnp
  simp only [layoutAllSizeOf]
  by_cases hM : c.strMax = true
  · -- pref-baseline stretch
    have hd := mkLACtx_strMax_eq dim al spc allocSz contPref contNeed kids
    rw [← hc, hM] at hd
    have hd2 := hd.symm
    simp only [Bool.and_eq_true, decide_eq_true_eq] at hd2
    obtain ⟨⟨hUp, hex⟩, hlenM⟩ := hd2
    have hneM : (kids.filter (fun k => k.size.hasMaxStretch dim)) ≠ [] := by
      intro h
      rw [h] at hlenM
      simp at hlenM
    have htotM : 0 < ((kids.filter (fun k => k.size.hasMaxStretch dim)).map
        (fun k => k.size.pref.dim dim)).sum := by
      rcases htM with h | h
      · exact absurd h hneM
      · refine lt_of_le_of_ne ?_ (Ne.symm h)
        apply sum_pref_nonneg
        intro k hk
        obtain ⟨h1, h2⟩ := hsan k (List.mem_of_mem_filter hk)
        exact le_trans h1 h2
    have htot := mkLACtx_tot_eq dim al spc allocSz contPref contNeed kids
    rw [← hc, hM] at htot
    simp only [if_true] at htot
    have hshare : 0 ≤ c.extra * (kd.size.pref.dim dim / c.tot) := by
      apply mul_nonneg (le_of_lt hex)
      rw [htot]
      exact div_nonneg hp0 (le_of_lt htotM)
    rw [if_pos hM, if_pos hUp]
    by_cases hcand : kd.size.hasMaxStretch dim = true
    · rw [if_pos hcand]
      constructor
      · linarith
      · intro hms hcs
        rw [hms] at hcand
        exact absurd hcand (by simp)
    · rw [if_neg hcand]
      refine ⟨hnp, fun hms hcs => ?_⟩
      have hle : ¬(kd.size.need.dim dim < kd.size.pref.dim dim) :=
        of_decide_eq_false hcs
      linarith
  · have hMf : c.strMax = false := by rwa [Bool.not_eq_true] at hM
    rw [if_neg hM]
    by_cases hNd : c.strNeed = true
    · -- need-baseline stretch
      have hd := mkLACtx_strNeed_eq dim al spc allocSz contPref contNeed kids
      rw [← hc, hNd] at hd
      have hd2 := hd.symm
      simp only [Bool.and_eq_true, Bool.not_eq_true', decide_eq_true_eq] at hd2
      obtain ⟨⟨hUp, hex⟩, hlenN⟩ := hd2
      have hneN : (kids.filter (fun k =>
          k.size.hasMaxStretch dim || k.size.canStretchNeed dim)) ≠ [] := by
        intro h
        rw [h] at hlenN
        simp at hlenN
      have htotN : 0 < ((kids.filter (fun k =>
          k.size.hasMaxStretch dim || k.size.canStretchNeed dim)).map
            (fun k => k.size.pref.dim dim)).sum := by
        rcases htN with h | h
        · exact absurd h hneN
        · refine lt_of_le_of_ne ?_ (Ne.symm h)
          apply sum_pref_nonneg
          intro k hk
          obtain ⟨h1, h2⟩ := hsan k (List.mem_of_mem_filter hk)
          exact le_trans h1 h2
      have htot := mkLACtx_tot_eq dim al spc allocSz contPref contNeed kids
      rw [← hc, hMf, hNd] at htot
      simp only [Bool.false_eq_true, if_false, if_true] at htot
      have hshare : 0 ≤ c.extra * (kd.size.pref.dim dim / c.tot) := by
        apply mul_nonneg (le_of_lt hex)
        rw [htot]
        exact div_nonneg hp0 (le_of_lt htotN)
      rw [if_pos hNd, hUp]
      rw [if_neg (by simp : ¬(false = true))]
      by_cases hcand : (kd.size.hasMaxStretch dim ||
          kd.size.canStretchNeed dim) = true
      · rw [if_pos hcand]
        constructor
        · linarith
        · intro hms hcs
          rw [hms, hcs] at hcand
          exact absurd hcand (by simp)
      · rw [if_neg hcand]
        exact ⟨le_refl _, fun hms hcs => rfl⟩
    · rw [if_neg hNd]
      by_cases hUp : c.usePref = true
      · rw [if_pos hUp]
        refine ⟨hnp, fun hms hcs => ?_⟩
        have hle : ¬(kd.size.need.dim dim < kd.size.pref.dim dim) :=
          of_decide_eq_false hcs
        linarith
      · rw [if_neg hUp]
        exact ⟨le_refl _, fun hms hcs => rfl⟩

/-- Witness for C2: a container with `avail = 20` and children of
(Need, Pref) = (10, 30) and (5, 5) (preferred sum 35 > 20 + 0.1): the first
child gets at least its Need of 10, the second (not a stretch candidate)
gets exactly its Need of 5. -/
theorem c2_shrink_never_below_need_witness :
    10 ≤ ((layoutAll .X .left 0 20 35 15
        [mkLD ⟨10,0⟩ ⟨30,0⟩ ⟨0,0⟩, mkLD ⟨5,0⟩ ⟨5,0⟩ ⟨0,0⟩]).getD 0
        layoutDataZero).allocSize.dim .X ∧
    ((layoutAll .X .left 0 20 35 15
        [mkLD ⟨10,0⟩ ⟨30,0⟩ ⟨0,0⟩, mkLD ⟨5,0⟩ ⟨5,0⟩ ⟨0,0⟩]).getD 1
        layoutDataZero).allocSize.dim .X = 5 := by
  have hsan : ∀ k ∈ ([mkLD ⟨10,0⟩ ⟨30,0⟩ ⟨0,0⟩, mkLD ⟨5,0⟩ ⟨5,0⟩ ⟨0,0⟩] :
      List LayoutData), 0 ≤ k.size.need.dim .X ∧
      k.size.need.dim .X ≤ k.size.pref.dim .X := by
    rintro k hk
    simp only [List.mem_cons, List.not_mem_nil, or_false] at hk
    rcases hk with rfl | rfl <;>
      norm_num [mkLD, layoutDataZero, Vec2D.dim, Vec2D.zero]
  have hfall : (20 : ℚ) - 2 * 0 + 1/10 <
      (([mkLD ⟨10,0⟩ ⟨30,0⟩ ⟨0,0⟩, mkLD ⟨5,0⟩ ⟨5,0⟩ ⟨0,0⟩] : List LayoutData).map
        (fun k => k.size.pref.dim .X)).sum := by
    norm_num [mkLD, layoutDataZero, Vec2D.dim, Vec2D.zero, List.sum]
  have htM : (([mkLD ⟨10,0⟩ ⟨30,0⟩ ⟨0,0⟩, mkLD ⟨5,0⟩ ⟨5,0⟩ ⟨0,0⟩] :
      List LayoutData).filter (fun k => k.size.hasMaxStretch .X)) = [] := by
    norm_num [mkLD, layoutDataZero, Vec2D.dim, Vec2D.zero, List.filter,
      SizePrefs.hasMaxStretch]
  have htN : ((([mkLD ⟨10,0⟩ ⟨30,0⟩ ⟨0,0⟩, mkLD ⟨5,0⟩ ⟨5,0⟩ ⟨0,0⟩] :
      List LayoutData).filter (fun k =>
        k.size.hasMaxStretch .X || k.size.canStretchNeed .X)).map
      (fun k => k.size.pref.dim .X)).sum ≠ 0 := by
    norm_num [mkLD, layoutDataZero, Vec2D.dim, Vec2D.zero, List.filter,
      SizePrefs.hasMaxStretch, SizePrefs.canStretchNeed, List.sum]
  constructor
  · have h0 := (c2_shrink_never_below_need .X .left 0 20 35 15
      [mkLD ⟨10,0⟩ ⟨30,0⟩ ⟨0,0⟩, mkLD ⟨5,0⟩ ⟨5,0⟩ ⟨0,0⟩]
      hfall hsan (Or.inl htM) (Or.inr htN) 0 (by norm_num)).1
    have hev : (([mkLD ⟨10,0⟩ ⟨30,0⟩ ⟨0,0⟩, mkLD ⟨5,0⟩ ⟨5,0⟩ ⟨0,0⟩] :
        List LayoutData).getD 0 layoutDataZero).size.need.dim .X = 10 := by
      norm_num [mkLD, layoutDataZero, Vec2D.dim, Vec2D.zero, List.getD]
    rw [hev] at h0
    exact h0
  · have h1 := (c2_shrink_never_below_need .X .left 0 20 35 15
      [mkLD ⟨10,0⟩ ⟨30,0⟩ ⟨0,0⟩, mkLD ⟨5,0⟩ ⟨5,0⟩ ⟨0,0⟩]
      hfall hsan (Or.inl htM) (Or.inr htN) 1 (by norm_num)).2
      (by norm_num [mkLD, layoutDataZero, Vec2D.dim, Vec2D.zero, List.getD,
        SizePrefs.hasMaxStretch])
      (by norm_num [mkLD, layoutDataZero, Vec2D.dim, Vec2D.zero, List.getD,
        SizePrefs.canStretchNeed])
    have hev : (([mkLD ⟨10,0⟩ ⟨30,0⟩ ⟨0,0⟩, mkLD ⟨5,0⟩ ⟨5,0⟩ ⟨0,0⟩] :
        List LayoutData).getD 1 layoutDataZero).size.need.dim .X = 5 := by
      norm_num [mkLD, layoutDataZero, Vec2D.dim, Vec2D.zero, List.getD]
    rw [hev] at h1
    exact h1

/-- C3: evaluation of the source at the failing input.  A fresh 1x1 grid
whose single cell has `Max = (-1, 0)` (stretch on X, bounded on Y): the
claim (and spec) say the column track's `Max.X` must become `-1`, but the
source (layout.go:463) tests the cell's `Max.Y` when updating the column
track, so the track's `Max.X` stays `0`. -/
theorem c3_col_track_ignores_cell_max_x :
    ((gatherSizesGrid 1 0 layoutDataZero
        [⟨0, 0, 0, 0, mkLD ⟨0,0⟩ ⟨0,0⟩ ⟨-1,0⟩⟩] [] [] (0, 0)).colData.getD 0
        layoutDataZero).size.max.x = 0 ∧
    ((gatherSizesGrid 1 0 layoutDataZero
        [⟨0, 0, 0, 0, mkLD ⟨0,0⟩ ⟨0,0⟩ ⟨-1,0⟩⟩] [] [] (0, 0)).colData.getD 0
        layoutDataZero).size.max.x ≠ -1 := by
  have hupd : updateSizes (mkLD ⟨0,0⟩ ⟨0,0⟩ ⟨-1,0⟩) = mkLD ⟨0,0⟩ ⟨0,0⟩ ⟨-1,0⟩ := by
    norm_num [updateSizes, mkLD, layoutDataZero, Vec2D.zero, Vec2D.max2,
      Vec2D.setMinPos]
  have hrow : updateTrackRow [layoutDataZero] 0 (mkLD ⟨0,0⟩ ⟨0,0⟩ ⟨-1,0⟩)
      = [layoutDataZero] := by
    norm_num [updateTrackRow, mkLD, layoutDataZero, Vec2D.zero, Vec2D.dim,
      Vec2D.setDim, Vec2D.setMaxDim, List.getD]
  have hcol : updateTrackCol [layoutDataZero] 0 (mkLD ⟨0,0⟩ ⟨0,0⟩ ⟨-1,0⟩)
      = [layoutDataZero] := by
    norm_num [updateTrackCol, mkLD, layoutDataZero, Vec2D.zero, Vec2D.dim,
      Vec2D.setDim, Vec2D.setMaxDim, List.getD]
  have hloop : gridGatherLoop 1 1 [⟨0, 0, 0, 0, mkLD ⟨0,0⟩ ⟨0,0⟩ ⟨-1,0⟩⟩] 0 0
      [layoutDataZero] [layoutDataZero]
      = ([⟨0, 0, 0, 0, mkLD ⟨0,0⟩ ⟨0,0⟩ ⟨-1,0⟩⟩], [layoutDataZero],
          [layoutDataZero]) := by
    simp only [gridGatherLoop, hupd]
    norm_num [hrow, hcol]
  have hdims : gridDims 1 [(⟨0, 0, 0, 0, mkLD ⟨0,0⟩ ⟨0,0⟩ ⟨-1,0⟩⟩ : GridChild)]
      = (1, 1) := by
    simp [gridDims, gridColsBase, gridRowsBase, bumpRows]
  have hreset : (fun (t : LayoutData) =>
      { t with size := { t.size with need := Vec2D.zero, pref := Vec2D.zero } })
      layoutDataZero = layoutDataZero := rfl
  have hmain : (gatherSizesGrid 1 0 layoutDataZero
      [⟨0, 0, 0, 0, mkLD ⟨0,0⟩ ⟨0,0⟩ ⟨-1,0⟩⟩] [] [] (0, 0)).colData
      = [layoutDataZero] := by
    rw [gatherSizesGrid]
    simp [hdims, hreset, hloop]
  rw [hmain]
  norm_num [List.getD, layoutDataZero, Vec2D.zero]

theorem bumpRows_fuel (sz cols : ℕ) (hc : cols ≠ 0) :
    ∀ (fuel r : ℕ), sz - r * cols ≤ fuel →
      r ≤ bumpRows sz cols r ∧ sz ≤ (bumpRows sz cols r) * cols ∧
      (∀ r2, r ≤ r2 → sz ≤ r2 * cols → bumpRows sz cols r ≤ r2) := by
  intro fuel
  induction fuel with
  | zero =>
    intro r h
    rw [bumpRows]
    split_ifs with h1 h2
    · exact absurd h1 hc
    · omega
    · exact ⟨le_refl r, by omega, fun r2 hr2 hsz => hr2⟩
  | succ m ih =>
    intro r h
    rw [bumpRows]
    split_ifs with h1 h2
    · exact absurd h1 hc
    · have e : (r + 1) * cols = r * cols + cols := by ring
      have hcpos : 1 ≤ cols := Nat.one_le_iff_ne_zero.mpr hc
      obtain ⟨ih1, ih2, ih3⟩ := ih (r + 1) (by omega)
      refine ⟨le_trans (Nat.le_succ r) ih1, ih2, fun r2 hr2 hsz => ?_⟩
      apply ih3 r2 ?_ hsz
      by_cases hr : r2 = r
      · subst hr
        omega
      · omega
    · exact ⟨le_refl r, by omega, fun r2 hr2 hsz => hr2⟩

/-- C4 counterexample: 3 children, no explicit `Columns`, no per-child
positions.  The claim prescribes `cols = round(sqrt(3)) = 2`; the source
computes `int(math.Sqrt(3)) = 1` (truncation), yielding `GridSize.X = 1`. -/
theorem c4_cols_not_rounded :
    (gridDims 0 [⟨0, 0, 0, 0, layoutDataZero⟩, ⟨0, 0, 0, 0, layoutDataZero⟩,
      ⟨0, 0, 0, 0, layoutDataZero⟩]).1 = 1 ∧
    claimRoundSqrt 3 = 2 ∧
    (gridDims 0 [⟨0, 0, 0, 0, layoutDataZero⟩, ⟨0, 0, 0, 0, layoutDataZero⟩,
      ⟨0, 0, 0, 0, layoutDataZero⟩]).1 ≠ claimRoundSqrt 3 := by
  have hs3 : Nat.sqrt 3 = 1 := by
    have a : 1 ≤ Nat.sqrt 3 := Nat.le_sqrt.mpr (by norm_num)
    have b : Nat.sqrt 3 < 2 := Nat.sqrt_lt.mpr (by norm_num)
    omega
  have h1 : (gridDims 0 [(⟨0, 0, 0, 0, layoutDataZero⟩ : GridChild),
      ⟨0, 0, 0, 0, layoutDataZero⟩, ⟨0, 0, 0, 0, layoutDataZero⟩]).1 = 1 := by
    simp [gridDims, gridColsBase, gridRowsBase, List.foldl, hs3]
  have h2 : claimRoundSqrt 3 = 2 := by
    simp [claimRoundSqrt, hs3]
  refine ⟨h1, h2, ?_⟩
  rw [h1, h2]
  omega

/-- C4 (amended): `cols` is the maximum of the explicit `Columns` style and
`Col+ColSpan` over children that specify a column; if that maximum is 0,
`cols = trunc(sqrt(childCount))`.  `rows` starts from the analogous row scan
(or `childCount / cols` when that is 0) and is then increased until
`rows*cols ≥ childCount`, and is the least such value; in particular for
explicit `Columns = 3` and 7 plain children, `GridSize = (3, 3)`. -/
theorem c4_grid_dims_amended (columns : ℕ) (kids : List GridChild)
    (hne : kids ≠ []) :
    (gridDims columns kids).1
      = (if gridColsBase columns kids = 0 then Nat.sqrt kids.length
         else gridColsBase columns kids) ∧
    kids.length ≤ (gridDims columns kids).2 * (gridDims columns kids).1 ∧
    (∀ r2, (if gridRowsBase kids = 0 then kids.length / (gridDims columns kids).1
        else gridRowsBase kids) ≤ r2 →
      kids.length ≤ r2 * (gridDims columns kids).1 →
      (gridDims columns kids).2 ≤ r2) ∧
    gridDims 3 [⟨0, 0, 0, 0, layoutDataZero⟩, ⟨0, 0, 0, 0, layoutDataZero⟩,
      ⟨0, 0, 0, 0, layoutDataZero⟩, ⟨0, 0, 0, 0, layoutDataZero⟩,
      ⟨0, 0, 0, 0, layoutDataZero⟩, ⟨0, 0, 0, 0, layoutDataZero⟩,
      ⟨0, 0, 0, 0, layoutDataZero⟩] = (3, 3) := by
  have hinst : gridDims 3 [(⟨0, 0, 0, 0, layoutDataZero⟩ : GridChild),
      ⟨0, 0, 0, 0, layoutDataZero⟩, ⟨0, 0, 0, 0, layoutDataZero⟩,
      ⟨0, 0, 0, 0, layoutDataZero⟩, ⟨0, 0, 0, 0, layoutDataZero⟩,
      ⟨0, 0, 0, 0, layoutDataZero⟩, ⟨0, 0, 0, 0, layoutDataZero⟩] = (3, 3) := by
    simp [gridDims, gridColsBase, gridRowsBase, List.foldl, bumpRows]
  have hsz : 0 < kids.length := List.length_pos.mpr hne
  have hcols : (if gridColsBase columns kids = 0 then Nat.sqrt kids.length
      else gridColsBase columns kids) ≠ 0 := by
    by_cases h : gridColsBase columns kids = 0
    · simp only [h, if_true]
      intro hq
      rw [Nat.sqrt_eq_zero] at hq
      omega
    · simp only [h, if_false]
      exact h
  have h1 : (gridDims columns kids).1
      = (if gridColsBase columns kids = 0 then Nat.sqrt kids.length
         else gridColsBase columns kids) := rfl
  have h2 : (gridDims columns kids).2
      = bumpRows kids.length (gridDims columns kids).1
          (if gridRowsBase kids = 0 then kids.length / (gridDims columns kids).1
           else gridRowsBase kids) := rfl
  have hb := bumpRows_fuel kids.length (gridDims columns kids).1
    (h1 ▸ hcols)
    (kids.length - (if gridRowsBase kids = 0 then
      kids.length / (gridDims columns kids).1 else gridRowsBase kids) *
        (gridDims columns kids).1)
    (if gridRowsBase kids = 0 then kids.length / (gridDims columns kids).1
     else gridRowsBase kids)
    (le_refl _)
  refine ⟨h1, ?_, ?_, hinst⟩
  · rw [h2]
    exact hb.2.1
  · intro r2 hr2 hszr
    rw [h2]
    exact hb.2.2 r2 hr2 hszr

/-- Witness for C4 (amended): the `(3, 3)` instance holds and the row bound
`7 ≤ 3 * 3` is established via the theorem at the concrete 7-child grid. -/
theorem c4_grid_dims_amended_witness :
    (7 : ℕ) ≤ (gridDims 3 [⟨0, 0, 0, 0, layoutDataZero⟩, ⟨0, 0, 0, 0, layoutDataZero⟩,
        ⟨0, 0, 0, 0, layoutDataZero⟩, ⟨0, 0, 0, 0, layoutDataZero⟩,
        ⟨0, 0, 0, 0, layoutDataZero⟩, ⟨0, 0, 0, 0, layoutDataZero⟩,
        ⟨0, 0, 0, 0, layoutDataZero⟩]).2 *
      (gridDims 3 [⟨0, 0, 0, 0, layoutDataZero⟩, ⟨0, 0, 0, 0, layoutDataZero⟩,
        ⟨0, 0, 0, 0, layoutDataZero⟩, ⟨0, 0, 0, 0, layoutDataZero⟩,
        ⟨0, 0, 0, 0, layoutDataZero⟩, ⟨0, 0, 0, 0, layoutDataZero⟩,
        ⟨0, 0, 0, 0, layoutDataZero⟩]).1 := by
  exact (c4_grid_dims_amended 3 [⟨0, 0, 0, 0, layoutDataZero⟩,
    ⟨0, 0, 0, 0, layoutDataZero⟩, ⟨0, 0, 0, 0, layoutDataZero⟩,
    ⟨0, 0, 0, 0, layoutDataZero⟩, ⟨0, 0, 0, 0, layoutDataZero⟩,
    ⟨0, 0, 0, 0, layoutDataZero⟩, ⟨0, 0, 0, 0, layoutDataZero⟩]
    (by simp)).2.1

theorem Vec2D.dim_max2 (a b : Vec2D) (d : Dims2D) :
    (a.max2 b).dim d = max (a.dim d) (b.dim d) := by
  cases d <;> rfl

theorem Vec2D.dim_setAddVal (v : Vec2D) (q : ℚ) (d : Dims2D) :
    (v.setAddVal q).dim d = v.dim d + q := by
  cases d <;> rfl

theorem Vec2D.dim_setMinPos (a b : Vec2D) (d : Dims2D) :
    (a.setMinPos b).dim d
      = if 0 < b.dim d then min (a.dim d) (b.dim d) else a.dim d := by
  cases d <;> rfl

theorem Vec2D.le_dim_setMaxDim_chain (v : Vec2D) (a b : ℚ) (d : Dims2D) :
    v.dim d ≤ ((v.setMaxDim .X a).setMaxDim .Y b).dim d := by
  cases d <;> exact le_max_left _ _

theorem updateSizes_need_dim (ld : LayoutData) (d : Dims2D) :
    (updateSizes ld).size.need.dim d
      = (if 0 < ld.size.max.dim d then
          min (max (ld.size.need.dim d) (ld.allocSize.dim d)) (ld.size.max.dim d)
        else max (ld.size.need.dim d) (ld.allocSize.dim d)) := by
  cases d <;> rfl

theorem updateSizes_pref_dim (ld : LayoutData) (d : Dims2D) :
    (updateSizes ld).size.pref.dim d
      = (if 0 < ld.size.max.dim d then
          min (max (ld.size.pref.dim d)
            (max (ld.size.need.dim d) (ld.allocSize.dim d))) (ld.size.max.dim d)
        else max (ld.size.pref.dim d)
          (max (ld.size.need.dim d) (ld.allocSize.dim d))) := by
  cases d <;> rfl

theorem updateSizes_max_eq (ld : LayoutData) :
    (updateSizes ld).size.max = ld.size.max := rfl

theorem updateSizes_dim_invariant (ld : LayoutData) (d : Dims2D) :
    (updateSizes ld).size.need.dim d ≤ (updateSizes ld).size.pref.dim d ∧
    (0 < ld.size.max.dim d →
      (updateSizes ld).size.need.dim d ≤ ld.size.max.dim d ∧
      (updateSizes ld).size.pref.dim d ≤ ld.size.max.dim d) := by
  rw [updateSizes_need_dim, updateSizes_pref_dim]
  by_cases h : 0 < ld.size.max.dim d
  · rw [if_pos h, if_pos h]
    exact ⟨min_le_min (le_max_right _ _) (le_refl _),
      fun _ => ⟨min_le_right _ _, min_le_right _ _⟩⟩
  · rw [if_neg h, if_neg h]
    exact ⟨le_max_right _ _, fun hp => absurd hp h⟩

theorem updateSizes_sizeInvariant (ld : LayoutData) :
    sizeInvariant (updateSizes ld).size := by
  have hx := updateSizes_dim_invariant ld .X
  have hy := updateSizes_dim_invariant ld .Y
  have hmx : (updateSizes ld).size.max = ld.size.max := updateSizes_max_eq ld
  refine ⟨⟨hx.1, hy.1⟩, fun h => ?_, fun h => ?_⟩
  · have h2 : 0 < ld.size.max.dim .X := by
      rw [← hmx]
      exact h
    exact hx.2 h2
  · have h2 : 0 < ld.size.max.dim .Y := by
      rw [← hmx]
      exact h
    exact hy.2 h2

theorem updateSizes_need_ge (ld : LayoutData) (d : Dims2D) (q : ℚ)
    (hq : q ≤ ld.size.need.dim d) :
    (ld.size.max.dim d ≤ 0 → q ≤ (updateSizes ld).size.need.dim d) ∧
    (0 < ld.size.max.dim d →
      min q (ld.size.max.dim d) ≤ (updateSizes ld).size.need.dim d) := by
  rw [updateSizes_need_dim]
  constructor
  · intro h
    rw [if_neg (not_lt.mpr h)]
    exact le_trans hq (le_max_left _ _)
  · intro h
    rw [if_pos h]
    exact min_le_min (le_trans hq (le_max_left _ _)) (le_refl _)

theorem updateSizes_pref_ge (ld : LayoutData) (d : Dims2D) (q : ℚ)
    (hq : q ≤ ld.size.pref.dim d) :
    (ld.size.max.dim d ≤ 0 → q ≤ (updateSizes ld).size.pref.dim d) ∧
    (0 < ld.size.max.dim d →
      min q (ld.size.max.dim d) ≤ (updateSizes ld).size.pref.dim d) := by
  rw [updateSizes_pref_dim]
  constructor
  · intro h
    rw [if_neg (not_lt.mpr h)]
    exact le_trans hq (le_max_left _ _)
  · intro h
    rw [if_pos h]
    exact min_le_min (le_trans hq (le_max_left _ _)) (le_refl _)

theorem gatherSizes_fst_shape (lay : Layouts) (spc : ℚ) (ld : LayoutData)
    (kids : List LayoutData) (hne : ¬(kids = [])) :
    ∃ ld2 : LayoutData, (gatherSizes lay spc ld kids).1 = updateSizes ld2 ∧
      ld2.size.max = ld.size.max ∧
      (∀ d, ld.size.need.dim d + 2 * spc ≤ ld2.size.need.dim d) ∧
      (∀ d, ld.size.pref.dim d + 2 * spc ≤ ld2.size.pref.dim d) := by
  rw [gatherSizes, if_neg hne]
  refine ⟨_, rfl, rfl, fun d => ?_, fun d => ?_⟩
  · rw [Vec2D.dim_setAddVal]
    exact add_le_add_right (Vec2D.le_dim_setMaxDim_chain _ _ _ d) _
  · rw [Vec2D.dim_setAddVal]
    exact add_le_add_right (Vec2D.le_dim_setMaxDim_chain _ _ _ d) _

theorem gatherSizes_snd_eq (lay : Layouts) (spc : ℚ) (ld : LayoutData)
    (kids : List LayoutData) (hne : ¬(kids = [])) :
    (gatherSizes lay spc ld kids).2 = kids.map updateSizes := by
  rw [gatherSizes, if_neg hne]

theorem gatherSizesGrid_ld_shape (columns : ℕ) (spc : ℚ) (ld : LayoutData)
    (gkids : List GridChild) (gr gc : List LayoutData) (gs : ℕ × ℕ)
    (hne : ¬(gkids = [])) :
    ∃ ld2 : LayoutData, (gatherSizesGrid columns spc ld gkids gr gc gs).ld
      = updateSizes ld2 ∧
      ld2.size.max = ld.size.max ∧
      (∀ d, ld.size.need.dim d + 2 * spc ≤ ld2.size.need.dim d) ∧
      (∀ d, ld.size.pref.dim d + 2 * spc ≤ ld2.size.pref.dim d) := by
  rw [gatherSizesGrid, if_neg hne]
  refine ⟨_, rfl, rfl, fun d => ?_, fun d => ?_⟩
  · rw [Vec2D.dim_setAddVal, Vec2D.dim_max2]
    exact add_le_add_right (le_max_left _ _) _
  · rw [Vec2D.dim_setAddVal, Vec2D.dim_max2]
    exact add_le_add_right (le_max_left _ _) _

theorem gridGatherLoop_kids_shape (cols rows : ℕ) :
    ∀ (ks : List GridChild) (c r : ℕ) (rd cd : List LayoutData),
      ∀ k ∈ (gridGatherLoop cols rows ks c r rd cd).1,
        ∃ k0, k0 ∈ ks ∧ k.ld = updateSizes k0.ld
  | [], _, _, _, _ => by
    intro k hk
    simp [gridGatherLoop] at hk
  | k0 :: ks, c, r, rd, cd => by
    intro k hk
    rw [gridGatherLoop] at hk
    simp only [List.mem_cons] at hk
    rcases hk with hk | hk
    · exact ⟨k0, List.mem_cons_self _ _, by rw [hk]⟩
    · obtain ⟨k1, hk1, he⟩ := gridGatherLoop_kids_shape cols rows ks _ _ _ _ k hk
      exact ⟨k1, List.mem_cons_of_mem _ hk1, he⟩

theorem gatherSizesGrid_kids_shape (columns : ℕ) (spc : ℚ) (ld : LayoutData)
    (gkids : List GridChild) (gr gc : List LayoutData) (gs : ℕ × ℕ)
    (hne : ¬(gkids = [])) :
    ∀ k ∈ (gatherSizesGrid columns spc ld gkids gr gc gs).kids,
      ∃ k0, k0 ∈ gkids ∧ k.ld = updateSizes k0.ld := by
  rw [gatherSizesGrid, if_neg hne]
  intro k hk
  exact gridGatherLoop_kids_shape _ _ _ _ _ _ _ k hk

/-- C5 counterexample: a row container styled with `Need = Pref = (5,5)` and
`Max = (0,0)` (the default: 0 means "no constraint") gathered over one
zero-sized child keeps `Need.X = 5` while `Max.X = 0 ≥ 0`: the claimed
`Need ≤ Max` on every axis with `Max ≥ 0` fails at `Max = 0`. -/
theorem c5_max_zero_not_clamped :
    ((gatherSizes .row 0 (mkLD ⟨5,5⟩ ⟨5,5⟩ ⟨0,0⟩) [layoutDataZero]).1).size.need.x = 5 ∧
    0 ≤ ((gatherSizes .row 0 (mkLD ⟨5,5⟩ ⟨5,5⟩ ⟨0,0⟩) [layoutDataZero]).1).size.max.x ∧
    ¬(((gatherSizes .row 0 (mkLD ⟨5,5⟩ ⟨5,5⟩ ⟨0,0⟩) [layoutDataZero]).1).size.need.x
        ≤ ((gatherSizes .row 0 (mkLD ⟨5,5⟩ ⟨5,5⟩ ⟨0,0⟩) [layoutDataZero]).1).size.max.x) := by
  have hmain : (gatherSizes .row 0 (mkLD ⟨5,5⟩ ⟨5,5⟩ ⟨0,0⟩) [layoutDataZero]).1
      = mkLD ⟨5,5⟩ ⟨5,5⟩ ⟨0,0⟩ := by
    norm_num [gatherSizes, updateSizes, sumDim, mkLD, layoutDataZero, Vec2D.zero,
      Vec2D.dim, Vec2D.setDim, Vec2D.setMaxDim, Vec2D.max2, Vec2D.setMinPos,
      Vec2D.setAddVal, Vec2D.add, List.foldl]
  rw [hmain]
  norm_num [mkLD, layoutDataZero, Vec2D.zero]

/-- C5 (amended): after a gather pass (`GatherSizes` or `GatherSizesGrid`)
over a non-empty child list, the container and every gathered child satisfy
`Need ≤ Pref` componentwise and `Need ≤ Max`, `Pref ≤ Max` on each axis
where `Max > 0` (`Max = 0` is the "no constraint" sentinel and imposes no
bound). -/
theorem c5_gather_invariant_amended :
    (∀ (lay : Layouts) (spc : ℚ) (ld : LayoutData) (kids : List LayoutData),
      kids ≠ [] →
      sizeInvariant (gatherSizes lay spc ld kids).1.size ∧
      ∀ k ∈ (gatherSizes lay spc ld kids).2, sizeInvariant k.size) ∧
    (∀ (columns : ℕ) (spc : ℚ) (ld : LayoutData) (gkids : List GridChild)
        (gr gc : List LayoutData) (gs : ℕ × ℕ), gkids ≠ [] →
      sizeInvariant (gatherSizesGrid columns spc ld gkids gr gc gs).ld.size ∧
      ∀ k ∈ (gatherSizesGrid columns spc ld gkids gr gc gs).kids,
        sizeInvariant k.ld.size) := by
  constructor
  · intro lay spc ld kids hne
    constructor
    · obtain ⟨ld2, he, hmax, hn, hp⟩ := gatherSizes_fst_shape lay spc ld kids hne
      rw [he]
      exact updateSizes_sizeInvariant _
    · rw [gatherSizes_snd_eq lay spc ld kids hne]
      intro k hk
      obtain ⟨k0, hk0, rfl⟩ := List.mem_map.mp hk
      exact updateSizes_sizeInvariant _
  · intro columns spc ld gkids gr gc gs hne
    constructor
    · obtain ⟨ld2, he, hmax, hn, hp⟩ :=
        gatherSizesGrid_ld_shape columns spc ld gkids gr gc gs hne
      rw [he]
      exact updateSizes_sizeInvariant _
    · intro k hk
      obtain ⟨k0, hk0, he⟩ :=
        gatherSizesGrid_kids_shape columns spc ld gkids gr gc gs hne k hk
      rw [he]
      exact updateSizes_sizeInvariant _

/-- Witness for C5 (amended): the invariant holds after gathering one child
in a row container with a non-trivial style. -/
theorem c5_gather_invariant_amended_witness :
    sizeInvariant ((gatherSizes .row 1 (mkLD ⟨2,2⟩ ⟨4,4⟩ ⟨3,3⟩)
      [mkLD ⟨1,1⟩ ⟨1,1⟩ ⟨0,0⟩]).1).size := by
  exact (c5_gather_invariant_amended.1 .row 1 (mkLD ⟨2,2⟩ ⟨4,4⟩ ⟨3,3⟩)
    [mkLD ⟨1,1⟩ ⟨1,1⟩ ⟨0,0⟩] (by simp)).1

/-- C9 counterexample: a row container seeded with `Need = Pref = (5,5)` but
`Max = (3,3)` gathered over one zero child ends with `Need.X = 3 < 5`: the
closing `UpdateSizes` clamp can reduce the container's Need/Pref below their
pre-pass values, so the pass is not monotone as claimed. -/
theorem c9_clamp_reduces_need :
    ((gatherSizes .row 0 (mkLD ⟨5,5⟩ ⟨5,5⟩ ⟨3,3⟩) [layoutDataZero]).1).size.need.x = 3 ∧
    (mkLD ⟨5,5⟩ ⟨5,5⟩ ⟨3,3⟩).size.need.x = 5 ∧
    ¬((mkLD ⟨5,5⟩ ⟨5,5⟩ ⟨3,3⟩).size.need.x ≤
      ((gatherSizes .row 0 (mkLD ⟨5,5⟩ ⟨5,5⟩ ⟨3,3⟩) [layoutDataZero]).1).size.need.x) := by
  have hmain : (gatherSizes .row 0 (mkLD ⟨5,5⟩ ⟨5,5⟩ ⟨3,3⟩) [layoutDataZero]).1
      = mkLD ⟨3,3⟩ ⟨3,3⟩ ⟨3,3⟩ := by
    norm_num [gatherSizes, updateSizes, sumDim, mkLD, layoutDataZero, Vec2D.zero,
      Vec2D.dim, Vec2D.setDim, Vec2D.setMaxDim, Vec2D.max2, Vec2D.setMinPos,
      Vec2D.setAddVal, Vec2D.add, List.foldl]
  rw [hmain]
  norm_num [mkLD, layoutDataZero, Vec2D.zero]

/-- C9 (amended): with non-negative box spacing, the gather passes never
reduce the container's Need/Pref below their prior values through child
aggregation (which is max-with-existing plus added spacing); the only
reduction is the closing clamp to `Max` on axes where `Max > 0`, so the
post-pass value is at least `min(prior, Max)` there and at least the prior
value where `Max ≤ 0`. -/
theorem c9_gather_monotone_amended :
    (∀ (lay : Layouts) (spc : ℚ) (ld : LayoutData) (kids : List LayoutData)
        (d : Dims2D), 0 ≤ spc →
      (ld.size.max.dim d ≤ 0 →
        ld.size.need.dim d ≤ (gatherSizes lay spc ld kids).1.size.need.dim d ∧
        ld.size.pref.dim d ≤ (gatherSizes lay spc ld kids).1.size.pref.dim d) ∧
      (0 < ld.size.max.dim d →
        min (ld.size.need.dim d) (ld.size.max.dim d)
          ≤ (gatherSizes lay spc ld kids).1.size.need.dim d ∧
        min (ld.size.pref.dim d) (ld.size.max.dim d)
          ≤ (gatherSizes lay spc ld kids).1.size.pref.dim d)) ∧
    (∀ (columns : ℕ) (spc : ℚ) (ld : LayoutData) (gkids : List GridChild)
        (gr gc : List LayoutData) (gs : ℕ × ℕ) (d : Dims2D), 0 ≤ spc →
      (ld.size.max.dim d ≤ 0 →
        ld.size.need.dim d
          ≤ (gatherSizesGrid columns spc ld gkids gr gc gs).ld.size.need.dim d ∧
        ld.size.pref.dim d
          ≤ (gatherSizesGrid columns spc ld gkids gr gc gs).ld.size.pref.dim d) ∧
      (0 < ld.size.max.dim d →
        min (ld.size.need.dim d) (ld.size.max.dim d)
          ≤ (gatherSizesGrid columns spc ld gkids gr gc gs).ld.size.need.dim d ∧
        min (ld.size.pref.dim d) (ld.size.max.dim d)
          ≤ (gatherSizesGrid columns spc ld gkids gr gc gs).ld.size.pref.dim d)) := by
  constructor
  · intro lay spc ld kids d hspc
    by_cases hne : kids = []
    · rw [gatherSizes, if_pos hne]
      exact ⟨fun _ => ⟨le_refl _, le_refl _⟩,
        fun _ => ⟨min_le_left _ _, min_le_left _ _⟩⟩
    · obtain ⟨ld2, he, hmax, hn, hp⟩ := gatherSizes_fst_shape lay spc ld kids hne
      rw [he]
      have hneed : ld.size.need.dim d ≤ ld2.size.need.dim d := by
        have h1 := hn d
        linarith
      have hpref : ld.size.pref.dim d ≤ ld2.size.pref.dim d := by
        have h1 := hp d
        linarith
      constructor
      · intro h
        have h2 : ld2.size.max.dim d ≤ 0 := by
          rw [hmax]
          exact h
        exact ⟨(updateSizes_need_ge ld2 d _ hneed).1 h2,
          (updateSizes_pref_ge ld2 d _ hpref).1 h2⟩
      · intro h
        have h2 : 0 < ld2.size.max.dim d := by
          rw [hmax]
          exact h
        have g1 := (updateSizes_need_ge ld2 d _ hneed).2 h2
        have g2 := (updateSizes_pref_ge ld2 d _ hpref).2 h2
        rw [hmax] at g1 g2
        exact ⟨g1, g2⟩
  · intro columns spc ld gkids gr gc gs d hspc
    by_cases hne : gkids = []
    · rw [gatherSizesGrid, if_pos hne]
      exact ⟨fun _ => ⟨le_refl _, le_refl _⟩,
        fun _ => ⟨min_le_left _ _, min_le_left _ _⟩⟩
    · obtain ⟨ld2, he, hmax, hn, hp⟩ :=
        gatherSizesGrid_ld_shape columns spc ld gkids gr gc gs hne
      rw [he]
      have hneed : ld.size.need.dim d ≤ ld2.size.need.dim d := by
        have h1 := hn d
        linarith
      have hpref : ld.size.pref.dim d ≤ ld2.size.pref.dim d := by
        have h1 := hp d
        linarith
      constructor
      · intro h
        have h2 : ld2.size.max.dim d ≤ 0 := by
          rw [hmax]
          exact h
        exact ⟨(updateSizes_need_ge ld2 d _ hneed).1 h2,
          (updateSizes_pref_ge ld2 d _ hpref).1 h2⟩
      · intro h
        have h2 : 0 < ld2.size.max.dim d := by
          rw [hmax]
          exact h
        have g1 := (updateSizes_need_ge ld2 d _ hneed).2 h2
        have g2 := (updateSizes_pref_ge ld2 d _ hpref).2 h2
        rw [hmax] at g1 g2
        exact ⟨g1, g2⟩

/-- Witness for C9 (amended): concrete clamp case — container Need 5 with
Max 3 on X keeps at least `min(5, 3)` after the pass. -/
theorem c9_gather_monotone_amended_witness :
    min ((mkLD ⟨5,5⟩ ⟨5,5⟩ ⟨3,3⟩).size.need.dim .X)
        ((mkLD ⟨5,5⟩ ⟨5,5⟩ ⟨3,3⟩).size.max.dim .X)
      ≤ ((gatherSizes .row 0 (mkLD ⟨5,5⟩ ⟨5,5⟩ ⟨3,3⟩)
          [layoutDataZero]).1).size.need.dim .X := by
  exact ((c9_gather_monotone_amended.1 .row 0 (mkLD ⟨5,5⟩ ⟨5,5⟩ ⟨3,3⟩)
    [layoutDataZero] .X (by norm_num)).2
    (by norm_num [mkLD, layoutDataZero, Vec2D.dim])).1

theorem updateSplits_kids (g : SplitView) : (updateSplits g).kids = g.kids := by
  rw [updateSplits]
  split_ifs <;> rfl

theorem updateSplits_saved (g : SplitView) :
    (updateSplits g).savedSplits = g.savedSplits := by
  rw [updateSplits]
  split_ifs <;> rfl

theorem setSplits_kids (g : SplitView) (args : List ℚ) :
    (setSplits g args).kids = g.kids := by
  rw [setSplits, updateSplits_kids]

theorem setSplits_saved (g : SplitView) (args : List ℚ) :
    (setSplits g args).savedSplits = g.savedSplits := by
  rw [setSplits, updateSplits_saved]

theorem sum_map_mul_const (l : List ℚ) (c : ℚ) :
    (l.map (fun x => x * c)).sum = l.sum * c := by
  induction l with
  | nil => simp
  | cons a t ih =>
    simp only [List.map_cons, List.sum_cons, ih]
    ring

/-- The normalization contract of `UpdateSplits` with children present:
length coerced to N (a wrong length is replaced by fresh zeros), sum
renormalized to exactly 1, equal shares when the sum was 0. -/
theorem updateSplits_spec (g : SplitView) (hk : g.kids ≠ 0) :
    (updateSplits g).splits.length = g.kids ∧
    (updateSplits g).splits.sum = 1 ∧
    (g.splits.length ≠ g.kids →
      (updateSplits g).splits = List.replicate g.kids ((1 : ℚ) / g.kids)) ∧
    (g.splits.length = g.kids → g.splits.sum ≠ 0 →
      (updateSplits g).splits = g.splits.map (fun x => x * (1 / g.splits.sum))) ∧
    (g.splits.length = g.kids → g.splits.sum = 0 →
      (updateSplits g).splits = List.replicate g.kids ((1 : ℚ) / g.kids)) := by
  have hkQ : ((g.kids : ℚ)) ≠ 0 := Nat.cast_ne_zero.mpr hk
  by_cases hl : g.splits.length = g.kids
  · by_cases hs : g.splits.sum = 0
    · have hres : (updateSplits g).splits
          = List.replicate g.kids ((1 : ℚ) / g.kids) := by
        rw [updateSplits, if_neg hk]
        simp [hl, hs]
      refine ⟨?_, ?_, ?_, ?_, ?_⟩
      · rw [hres, List.length_replicate]
      · rw [hres, List.sum_replicate, nsmul_eq_mul]
        field_simp
      · intro hl2
        exact absurd hl hl2
      · intro _ hs2
        exact absurd hs hs2
      · intro _ _
        exact hres
    · have hres : (updateSplits g).splits
          = g.splits.map (fun x => x * (1 / g.splits.sum)) := by
        rw [updateSplits, if_neg hk]
        simp [hl, hs]
      refine ⟨?_, ?_, ?_, ?_, ?_⟩
      · rw [hres, List.length_map, hl]
      · rw [hres, sum_map_mul_const]
        field_simp
      · intro hl2
        exact absurd hl hl2
      · intro _ _
        exact hres
      · intro _ hs2
        exact absurd hs2 hs
  · have hres : (updateSplits g).splits
        = List.replicate g.kids ((1 : ℚ) / g.kids) := by
      rw [updateSplits, if_neg hk]
      simp [hl]
    refine ⟨?_, ?_, ?_, ?_, ?_⟩
    · rw [hres, List.length_replicate]
    · rw [hres, List.sum_replicate, nsmul_eq_mul]
      field_simp
    · intro _
      exact hres
    · intro hl2
      exact absurd hl2 hl
    · intro hl2
      exact absurd hl2 hl

theorem collapse_fold_length (kQ : ℤ) (idxs : List ℤ) :
    ∀ s : List ℚ,
      (idxs.foldl (fun s idx =>
        if 0 ≤ idx ∧ idx < kQ then s.set idx.toNat 0 else s) s).length
      = s.length := by
  induction idxs with
  | nil => intro s; rfl
  | cons a t ih =>
    intro s
    rw [List.foldl_cons, ih]
    split_ifs <;> simp

theorem collapse_fold_skip (kQ : ℤ) (idxs : List ℤ)
    (h : ∀ idx ∈ idxs, ¬(0 ≤ idx ∧ idx < kQ)) :
    ∀ s : List ℚ,
      idxs.foldl (fun s idx =>
        if 0 ≤ idx ∧ idx < kQ then s.set idx.toNat 0 else s) s = s := by
  induction idxs with
  | nil => intro s; rfl
  | cons a t ih =>
    intro s
    rw [List.foldl_cons, if_neg (h a (List.mem_cons_self _ _))]
    exact ih (fun idx hidx => h idx (List.mem_cons_of_mem _ hidx)) s

theorem overwriteFirst_full :
    ∀ (n : ℕ) (s args : List ℚ), s.length = n → n ≤ args.length →
      overwriteFirst n s args = args.take n
  | 0, s, args => by
    intro hs _
    rw [List.length_eq_zero.mp hs]
    rfl
  | n + 1, s, [] => by
    intro _ h
    simp at h
  | n + 1, s, a :: as => by
    intro hs h
    cases s with
    | nil => simp at hs
    | cons b t =>
      rw [overwriteFirst, List.take_succ_cons]
      rw [overwriteFirst_full n t as (by simpa using hs) (by simpa using h)]

/-- C6 counterexample: a `SplitView` with 3 children and `Splits = [2, 2]`
(wrong length).  The claim says the two existing shares are preserved and a
0 appended, normalizing to `[1/2, 1/2, 0]`; the source replaces the slice by
fresh zeros (`make`), so the result is the equal shares `[1/3, 1/3, 1/3]`. -/
theorem c6_length_change_discards_shares :
    (updateSplits ⟨3, [2, 2], none⟩).splits = [1/3, 1/3, 1/3] ∧
    (updateSplits ⟨3, [2, 2], none⟩).splits ≠ [1/2, 1/2, 0] := by
  have h : (updateSplits ⟨3, [2, 2], none⟩).splits = [1/3, 1/3, 1/3] := by
    norm_num [updateSplits, List.replicate]
  refine ⟨h, ?_⟩
  rw [h]
  intro hx
  simp at hx

/-- C6 (amended): with N ≥ 1 children, `UpdateSplits` coerces `Splits` to
length N — discarding all prior entries and starting from fresh zeros when
the length differs — then renormalizes to sum exactly 1, with a zero
pre-normalization sum replaced by the equal shares `1/N`. -/
theorem c6_update_splits_amended (g : SplitView) (hk : g.kids ≠ 0) :
    (updateSplits g).splits.length = g.kids ∧
    (updateSplits g).splits.sum = 1 ∧
    (g.splits.length ≠ g.kids →
      (updateSplits g).splits = List.replicate g.kids ((1 : ℚ) / g.kids)) ∧
    (g.splits.length = g.kids → g.splits.sum ≠ 0 →
      (updateSplits g).splits = g.splits.map (fun x => x * (1 / g.splits.sum))) ∧
    (g.splits.length = g.kids → g.splits.sum = 0 →
      (updateSplits g).splits = List.replicate g.kids ((1 : ℚ) / g.kids)) :=
  updateSplits_spec g hk

/-- Witness for C6 (amended): 3 children with splits `[2, 2, 2]` normalize
to sum 1. -/
theorem c6_update_splits_amended_witness :
    (updateSplits ⟨3, [2, 2, 2], none⟩).splits.sum = 1 :=
  (c6_update_splits_amended ⟨3, [2, 2, 2], none⟩ (by norm_num)).2.1

theorem splitview_congr (a b : SplitView) (t : List ℚ) (h1 : a.kids = b.kids)
    (h2 : a.savedSplits = b.savedSplits) :
    ({ a with splits := t } : SplitView) = { b with splits := t } := by
  cases a
  cases b
  simp_all

/-- C7 counterexample: with 2 children and normalized `Splits = [1/2, 1/2]`,
`SetSplits(2)` (fewer arguments than children) yields `[4/5, 1/5]` once and
`[10/11, 1/11]` when repeated: `SetSplits` is not idempotent when it gets
fewer values than there are children, because the un-overwritten entries
were renormalized by the first call. -/
theorem c7_set_splits_not_idempotent :
    (setSplits ⟨2, [1/2, 1/2], none⟩ [2]).splits = [4/5, 1/5] ∧
    (setSplits (setSplits ⟨2, [1/2, 1/2], none⟩ [2]) [2]).splits
      = [10/11, 1/11] ∧
    (setSplits (setSplits ⟨2, [1/2, 1/2], none⟩ [2]) [2]).splits
      ≠ (setSplits ⟨2, [1/2, 1/2], none⟩ [2]).splits := by
  have h1 : setSplits ⟨2, [1/2, 1/2], none⟩ [2]
      = ⟨2, [4/5, 1/5], none⟩ := by
    norm_num [setSplits, updateSplits, overwriteFirst]
  have h2 : setSplits (⟨2, [4/5, 1/5], none⟩ : SplitView) [2]
      = ⟨2, [10/11, 1/11], none⟩ := by
    norm_num [setSplits, updateSplits, overwriteFirst]
  rw [h1, h2]
  refine ⟨rfl, rfl, ?_⟩
  intro hx
  simp at hx

/-- C7 (amended): for a `SplitView` whose `Splits` are normalized (length =
child count, sum exactly 1), `CollapseChild` with `save = true` on any index
list followed by `RestoreSplits` reproduces the pre-collapse `Splits`
exactly; and `SetSplits` called twice with the same arguments is idempotent
provided at least as many split values as children are passed (with fewer
arguments the remaining entries are renormalized again, see the
counterexample). -/
theorem c7_restore_roundtrip_and_idempotent :
    (∀ (g : SplitView) (idxs : List ℤ),
      g.splits.length = g.kids → g.splits.sum = 1 →
      (restoreSplits (collapseChild g true idxs)).splits = g.splits) ∧
    (∀ (g : SplitView) (args : List ℚ),
      g.splits.length = g.kids → g.kids ≤ args.length →
      setSplits (setSplits g args) args = setSplits g args) := by
  constructor
  · intro g idxs hl hsum
    have hk : g.kids ≠ 0 := by
      intro h0
      rw [h0] at hl
      rw [List.length_eq_zero.mp hl] at hsum
      simp at hsum
    have hlne : ¬(g.splits.length = 0) := by
      rw [hl]
      exact hk
    have hsave : saveSplits g = { g with savedSplits := some g.splits } := by
      rw [saveSplits, if_neg hlne]
    have hcc : collapseChild g true idxs
        = updateSplits { ({ g with savedSplits := some g.splits } : SplitView) with
            splits := idxs.foldl (fun s idx =>
              if 0 ≤ idx ∧ idx < (g.kids : ℤ) then s.set idx.toNat 0 else s)
              g.splits } := by
      rw [collapseChild, if_pos rfl, hsave]
    have hgk : (collapseChild g true idxs).kids = g.kids := by
      rw [hcc, updateSplits_kids]
    have hgsv : (collapseChild g true idxs).savedSplits = some g.splits := by
      rw [hcc, updateSplits_saved]
    have hglen : (collapseChild g true idxs).splits.length = g.kids := by
      rw [hcc]
      refine (updateSplits_spec _ ?_).1
      exact hk
    rw [restoreSplits, hgsv]
    show (setSplits (collapseChild g true idxs) g.splits).splits = g.splits
    have hmx : min (collapseChild g true idxs).kids g.splits.length = g.kids := by
      rw [hgk, hl, min_self]
    rw [setSplits, hmx,
      overwriteFirst_full g.kids (collapseChild g true idxs).splits g.splits
        hglen (by rw [hl])]
    rw [← hl, List.take_length]
    have hk2 : ({ (collapseChild g true idxs) with splits := g.splits } :
        SplitView).kids ≠ 0 := by
      show (collapseChild g true idxs).kids ≠ 0
      rw [hgk]
      exact hk
    have hspec := (updateSplits_spec _ hk2).2.2.2.1
      (by
        show g.splits.length = (collapseChild g true idxs).kids
        rw [hgk]
        exact hl)
      (by
        show g.splits.sum ≠ 0
        rw [hsum]
        norm_num)
    rw [hspec]
    show g.splits.map (fun x => x * (1 / g.splits.sum)) = g.splits
    rw [hsum]
    simp
  · intro g args hl hlen
    by_cases hk : g.kids = 0
    · have hmx : min g.kids args.length = 0 := by
        rw [hk]
        exact Nat.zero_min _
      have h0 : setSplits g args = g := by
        rw [setSplits, hmx]
        show updateSplits { g with splits := g.splits } = g
        rw [updateSplits,
          if_pos (show ({ g with splits := g.splits } : SplitView).kids = 0 from hk)]
      simp only [h0]
    · have hmx : min g.kids args.length = g.kids := min_eq_left hlen
      have hA : setSplits g args
          = updateSplits { g with splits := args.take g.kids } := by
        rw [setSplits, hmx, overwriteFirst_full g.kids g.splits args hl hlen]
      have hAkids : (setSplits g args).kids = g.kids := setSplits_kids g args
      have hAsaved : (setSplits g args).savedSplits = g.savedSplits :=
        setSplits_saved g args
      have hAlen : (setSplits g args).splits.length = g.kids := by
        rw [hA]
        exact (updateSplits_spec _
          (show ({ g with splits := args.take g.kids } : SplitView).kids ≠ 0 from hk)).1
      have hmx2 : min (setSplits g args).kids args.length = g.kids := by
        rw [hAkids]
        exact hmx
      have hB : setSplits (setSplits g args) args
          = updateSplits { (setSplits g args) with splits := args.take g.kids } := by
        calc setSplits (setSplits g args) args
            = updateSplits { (setSplits g args) with
                splits := overwriteFirst (min (setSplits g args).kids args.length)
                  (setSplits g args).splits args } := rfl
          _ = updateSplits { (setSplits g args) with splits := args.take g.kids } := by
              rw [hmx2, overwriteFirst_full g.kids (setSplits g args).splits args
                hAlen hlen]
      rw [hB, splitview_congr (setSplits g args) g (args.take g.kids) hAkids hAsaved,
        hA]

/-- Witness for C7 (amended): collapsing index 1 of `[1/6, 1/3, 1/2]` and
restoring reproduces the splits; `SetSplits(2,2,2)` on 3 children is
idempotent. -/
theorem c7_restore_roundtrip_and_idempotent_witness :
    (restoreSplits (collapseChild ⟨3, [1/6, 1/3, 1/2], none⟩ true [1])).splits
      = [1/6, 1/3, 1/2] ∧
    setSplits (setSplits ⟨3, [1/3, 1/3, 1/3], none⟩ [2, 2, 2]) [2, 2, 2]
      = setSplits ⟨3, [1/3, 1/3, 1/3], none⟩ [2, 2, 2] := by
  constructor
  · exact c7_restore_roundtrip_and_idempotent.1 ⟨3, [1/6, 1/3, 1/2], none⟩ [1]
      (by norm_num) (by norm_num)
  · exact c7_restore_roundtrip_and_idempotent.2 ⟨3, [1/3, 1/3, 1/3], none⟩
      [2, 2, 2] (by norm_num) (by norm_num)

theorem getD_map_lt (l : List ℚ) (f : ℚ → ℚ) (i : ℕ) (h : i < l.length) (d : ℚ) :
    (l.map f).getD i d = f (l.getD i d) := by
  rw [List.getD_eq_getElem?_getD, List.getElem?_map, List.getD_eq_getElem?_getD]
  rcases hx : l[i]? with _ | v
  · rw [List.getElem?_eq_none_iff] at hx
    omega
  · simp

theorem getD_set_self (l : List ℚ) (i : ℕ) (h : i < l.length) (a : ℚ) :
    (l.set i a).getD i 0 = a := by
  rw [List.getD_eq_getElem?_getD, List.getElem?_set_self (by simpa using h)]
  rfl

theorem collapse_g1_splits (g : SplitView) (save : Bool) :
    (if save then saveSplits g else g).splits = g.splits := by
  cases save
  · rfl
  · show (saveSplits g).splits = g.splits
    rw [saveSplits]
    split_ifs <;> rfl

theorem collapse_g1_kids (g : SplitView) (save : Bool) :
    (if save then saveSplits g else g).kids = g.kids := by
  cases save
  · rfl
  · show (saveSplits g).kids = g.kids
    rw [saveSplits]
    split_ifs <;> rfl

/-- C8 counterexample: `CollapseChild` with the out-of-range split index 5
on a 2-child `SplitView` returns exactly the same state as a collapse with
no indices at all — the function has no error result, so no
invalid-argument condition is reported to the caller, contradicting the
claim that a split index outside `[0, child count)` is reported as an
error. -/
theorem c8_collapse_out_of_range_silent :
    collapseChild ⟨2, [1/2, 1/2], none⟩ true [5]
      = collapseChild ⟨2, [1/2, 1/2], none⟩ true [] ∧
    (collapseChild ⟨2, [1/2, 1/2], none⟩ true [5]).splits = [1/2, 1/2] := by
  have h1 : collapseChild ⟨2, [1/2, 1/2], none⟩ true [5]
      = ⟨2, [1/2, 1/2], some [1/2, 1/2]⟩ := by
    norm_num [collapseChild, saveSplits, updateSplits]
  have h2 : collapseChild ⟨2, [1/2, 1/2], none⟩ true []
      = ⟨2, [1/2, 1/2], some [1/2, 1/2]⟩ := by
    norm_num [collapseChild, saveSplits, updateSplits]
  rw [h1, h2]
  exact ⟨rfl, rfl⟩

/-- C8 (amended): `ShowChildAtIndex` reports an invalid-argument error for
an out-of-range index, leaving `StackTop` unchanged, and succeeds on every
in-range index, setting `StackTop` to it.  `CollapseChild`, however, has no
error result: out-of-range split indices are skipped silently (the state is
as if they had not been passed), while in-range indices have their share
set to 0 before renormalization. -/
theorem c8_index_handling_amended :
    (∀ (n : ℕ) (st : Option ℤ) (idx : ℤ),
      (0 ≤ idx ∧ idx < (n : ℤ) → showChildAtIndex n st idx = (none, some idx)) ∧
      (¬(0 ≤ idx ∧ idx < (n : ℤ)) →
        (showChildAtIndex n st idx).1.isSome = true ∧
        (showChildAtIndex n st idx).2 = st)) ∧
    (∀ (g : SplitView) (save : Bool) (idxs : List ℤ),
      (∀ idx ∈ idxs, ¬(0 ≤ idx ∧ idx < (g.kids : ℤ))) →
      collapseChild g save idxs = collapseChild g save []) ∧
    (∀ (g : SplitView) (save : Bool) (idx : ℕ),
      g.splits.length = g.kids → idx < g.kids →
      (g.splits.set idx 0).sum ≠ 0 →
      (collapseChild g save [(idx : ℤ)]).splits.getD idx 0 = 0) := by
  refine ⟨?_, ?_, ?_⟩
  · intro n st idx
    constructor
    · intro h
      rw [showChildAtIndex, validIndex, if_pos h]
    · intro h
      rw [showChildAtIndex, validIndex, if_neg h]
      exact ⟨rfl, rfl⟩
  · intro g save idxs h
    rw [collapseChild, collapseChild, collapse_fold_skip _ idxs h]
    rfl
  · intro g save idx hl hidx hsum
    have hk : g.kids ≠ 0 := by omega
    have hfold : [((idx : ℕ) : ℤ)].foldl (fun s i =>
          if 0 ≤ i ∧ i < (g.kids : ℤ) then s.set i.toNat 0 else s)
          (if save then saveSplits g else g).splits
        = g.splits.set idx 0 := by
      rw [List.foldl_cons, List.foldl_nil, collapse_g1_splits g save, if_pos ?_]
      · simp
      · constructor
        · exact Int.natCast_nonneg idx
        · exact_mod_cast hidx
    have hcc : (collapseChild g save [(idx : ℤ)]).splits
        = (updateSplits { (if save then saveSplits g else g) with
            splits := g.splits.set idx 0 }).splits := by
      rw [collapseChild, hfold]
    rw [hcc]
    have hk2 : ({ (if save then saveSplits g else g) with
        splits := g.splits.set idx 0 } : SplitView).kids ≠ 0 := by
      show (if save then saveSplits g else g).kids ≠ 0
      rw [collapse_g1_kids g save]
      exact hk
    have hspec := (updateSplits_spec _ hk2).2.2.2.1
      (by
        show (g.splits.set idx 0).length = (if save then saveSplits g else g).kids
        rw [List.length_set, collapse_g1_kids g save]
        exact hl)
      (by
        show (g.splits.set idx 0).sum ≠ 0
        exact hsum)
    rw [hspec]
    have hlt : idx < (g.splits.set idx 0).length := by
      rw [List.length_set, hl]
      exact hidx
    rw [getD_map_lt _ _ idx hlt, getD_set_self g.splits idx (by rw [hl]; exact hidx)]
    ring

/-- Witness for C8 (amended): index 5 on 3 children errors with `StackTop`
untouched, index 1 succeeds; an out-of-range collapse equals a no-op
collapse; collapsing index 0 of `[1/2, 1/2]` zeroes its share. -/
theorem c8_index_handling_amended_witness :
    (showChildAtIndex 3 (some 0) 5).2 = some 0 ∧
    showChildAtIndex 3 (some 0) 1 = (none, some 1) ∧
    collapseChild ⟨2, [1/2, 1/2], none⟩ true [5]
      = collapseChild ⟨2, [1/2, 1/2], none⟩ true [] ∧
    (collapseChild ⟨2, [1/2, 1/2], none⟩ false [(0 : ℤ)]).splits.getD 0 0 = 0 := by
  refine ⟨?_, ?_, ?_, ?_⟩
  · exact ((c8_index_handling_amended.1 3 (some 0) 5).2 (by omega)).2
  · exact (c8_index_handling_amended.1 3 (some 0) 1).1 (by omega)
  · exact c8_index_handling_amended.2.1 ⟨2, [1/2, 1/2], none⟩ true [5]
      (by
        intro idx hidx
        rw [List.mem_singleton] at hidx
        subst hidx
        decide)
  · exact c8_index_handling_amended.2.2 ⟨2, [1/2, 1/2], none⟩ false 0
      (by norm_num) (by norm_num) (by norm_num)

/-- C10: `ManageOverflow` with zero children returns the incoming overflow
state untouched (stale flags persist); with at least one child the result
is computed solely from the style and the current `ChildSize`/`AllocSize`,
independent of the previous flags and `ExtraSize`, so the operation is
idempotent. -/
theorem c10_manage_overflow_frame (kids : ℕ) (ov : Overflow) (spc sbw : ℚ)
    (allocSize childSize : Vec2D) (st st2 : OverflowState) :
    (kids = 0 → manageOverflow kids ov spc sbw allocSize childSize st = st) ∧
    (kids ≠ 0 → manageOverflow kids ov spc sbw allocSize childSize st
        = manageOverflow kids ov spc sbw allocSize childSize st2) ∧
    manageOverflow kids ov spc sbw allocSize childSize
        (manageOverflow kids ov spc sbw allocSize childSize st)
      = manageOverflow kids ov spc sbw allocSize childSize st := by
  refine ⟨?_, ?_, ?_⟩
  · intro h
    rw [manageOverflow, if_pos h]
  · intro h
    rw [manageOverflow, if_neg h]
    rw [manageOverflow, if_neg h]
  · by_cases h : kids = 0
    · rw [manageOverflow, if_pos h]
    · rw [manageOverflow, if_neg h]
      rw [manageOverflow, if_neg h]

/-- Witness for C10: zero children leave a stale overflow state in place;
one child recomputes it identically from two different prior states. -/
theorem c10_manage_overflow_frame_witness :
    manageOverflow 0 .auto 0 16 ⟨100, 100⟩ ⟨50, 50⟩ ⟨⟨7, 7⟩, true, true⟩
      = ⟨⟨7, 7⟩, true, true⟩ ∧
    manageOverflow 1 .auto 0 16 ⟨100, 100⟩ ⟨50, 50⟩ ⟨⟨7, 7⟩, true, true⟩
      = manageOverflow 1 .auto 0 16 ⟨100, 100⟩ ⟨50, 50⟩ ⟨⟨0, 0⟩, false, false⟩ := by
  constructor
  · exact (c10_manage_overflow_frame 0 .auto 0 16 ⟨100, 100⟩ ⟨50, 50⟩
      ⟨⟨7, 7⟩, true, true⟩ ⟨⟨7, 7⟩, true, true⟩).1 rfl
  · exact (c10_manage_overflow_frame 1 .auto 0 16 ⟨100, 100⟩ ⟨50, 50⟩
      ⟨⟨7, 7⟩, true, true⟩ ⟨⟨0, 0⟩, false, false⟩).2.1 (by norm_num)

end GiLayout